import Mathlib

/-!
Shallow embedding of `src/Analysis/recommendation2.py`, the band
recommendation pipeline, together with proofs that check the design
document against it.

Modelling conventions:
* pandas `DataFrame`s are modelled column-major, as an ordered association
  list from column names to lists of cells (`DF`); a data frame is
  well-formed when all its columns have the same length, and a row is the
  family of cells at one position.
* floating-point numbers are modelled by `ℚ`; the IEEE `NaN` produced by
  `0/0` (and propagated through arithmetic) is modelled by an explicit
  `Val.nan` cell, respectively by `none` in `Option ℚ`.
* operations that can raise a Python exception (`KeyError` on a missing
  column, `IndexError` on an empty selection) return `Option`, `none`
  standing for the raised exception.
* the numeric text-similarity kernel (`TfidfVectorizer` + `TruncatedSVD` +
  `cosine_similarity`, lines 77–92) and the geographic distance kernel are
  external library collaborators; they enter the embedding as function
  parameters (`simFn`, `geoFn`) giving a score per row.
* the helper modules `CleanGenre` and `Cleancountry` are imported by the
  source file but are not part of it; their three functions are modelled
  from the spec, as recorded in their doc comments.
-/

namespace Music

/-- A pandas cell value. `nan` stands both for a missing value and for the
floating point `NaN` produced by degenerate arithmetic. -/
inductive Val where
  | int : Int → Val
  | rat : ℚ → Val
  | str : String → Val
  | tags : List String → Val
  | nan : Val
deriving DecidableEq, Repr

/-- Column-major data frame: ordered association list of column name and
cells.  `pd.DataFrame()` (no columns at all) is `[]`. -/
abbrev DF := List (String × List Val)

/-- The column names of a data frame, in order. -/
def colNames (df : DF) : List String := df.map (·.1)

/-- Column read `df[c]`: the cells of column `c`; `none` models the `KeyError` raised
when the column is absent. -/
def getCol? (df : DF) (c : String) : Option (List Val) :=
  (df.find? (fun p => p.1 == c)).map (·.2)

/-- Column write `df[c] = vs`: overwrite the column in place when it exists, otherwise
append it on the right (pandas column-assignment semantics). -/
def setCol (df : DF) (c : String) (vs : List Val) : DF :=
  if df.any (fun p => p.1 == c) then
    df.map (fun p => if p.1 == c then (c, vs) else p)
  else df ++ [(c, vs)]

/-- Model of `df.drop(columns=cs)` with the default `errors='raise'`: `none` models
the `KeyError` raised when any requested column is absent. -/
def dropColsE (df : DF) (cs : List String) : Option DF :=
  if cs.all (fun c => (colNames df).contains c) then
    some (df.filter (fun p => !(cs.contains p.1)))
  else none

/-- Keep the entries whose boolean mask entry is `true` (order
preserving). -/
def maskList (vs : List α) (mask : List Bool) : List α :=
  (vs.zip mask).filterMap (fun p => if p.2 then some p.1 else none)

/-- Row selection `df[mask]`: boolean row selection applied to every column. -/
def applyMask (df : DF) (mask : List Bool) : DF :=
  df.map (fun p => (p.1, maskList p.2 mask))

/-- Number of rows, read off the first column (`0` for a column-less
frame); meaningful on well-formed frames. -/
def nRows (df : DF) : Nat :=
  match df with
  | [] => 0
  | p :: _ => p.2.length

/-- Model of `df.empty`: true when the frame has no columns or no rows. -/
def dfEmpty (df : DF) : Bool :=
  match df with
  | [] => true
  | p :: _ => p.2.length == 0

/-- Every column has exactly `n` cells. -/
def WF (df : DF) (n : Nat) : Prop := ∀ p ∈ df, p.2.length = n

/-- Numeric reading of a cell, as the pipeline's arithmetic sees it. -/
def toRat (v : Val) : ℚ :=
  match v with
  | Val.rat q => q
  | Val.int n => (n : ℚ)
  | _ => 0

/-- Genre-tag reading of a cell. -/
def valTags (v : Val) : List String :=
  match v with
  | Val.tags g => g
  | _ => []

/-! ### Series minima and maxima -/

/-- Model of `series.min()` for a non-empty series (the `[]` default is never used
under the non-emptiness hypotheses below). -/
def seriesMin (s : List ℚ) : ℚ :=
  match s with
  | [] => 0
  | a :: t => t.foldl min a

/-- Model of `series.max()` for a non-empty series. -/
def seriesMax (s : List ℚ) : ℚ :=
  match s with
  | [] => 0
  | a :: t => t.foldl max a

/-! ### `normalize_score` (source lines 117–119)

`(series - series.min()) / (series.max() - series.min())`, verbatim: there
is no guard for `max == min`.  In that degenerate case every numerator is
`0` as well, so pandas computes `0/0 = NaN` in every entry; the embedding
returns `none` for such entries. -/

/-- Source `normalize_score`: min-max normalization with NaN (`none`) on a
zero denominator. -/
def normalize_score (s : List ℚ) : List (Option ℚ) :=
  s.map (fun x =>
    if seriesMax s - seriesMin s = 0 then none
    else some ((x - seriesMin s) / (seriesMax s - seriesMin s)))

/-! ### Crowd similarity (source lines 102–115)

`similar_artists_df` has the columns `Band ID`, `Similar Artist ID` and
`Score`; it is never mutated. -/

/-- One row of `similar_artists_df`: a directed crowd-similarity record. -/
structure Edge where
  bandId : Int
  similarArtistId : Int
  score : ℚ
deriving DecidableEq, Repr

/-- Descending-by-score comparison used to model
`sort_values(by='Score', ascending=False)`. -/
def scoreDesc (a b : Int × ℚ) : Prop := b.2 ≤ a.2

instance : DecidableRel scoreDesc := fun a b => inferInstanceAs (Decidable (b.2 ≤ a.2))

/-- The unique keys of `groupby('Similar Artist ID')`, in the ascending
order pandas produces (`sort=True` default). -/
def aggKeys (l : List (Int × ℚ)) : List Int :=
  List.insertionSort (· ≤ ·) (l.map (·.1)).dedup

/-- Model of the per-group maximum taken by the `Score` aggregation. -/
def maxScoreFor (l : List (Int × ℚ)) (k : Int) : ℚ :=
  seriesMax ((l.filter (fun p => p.1 == k)).map (·.2))

/-- Source `aggregate_similar_bands`: group the `(Similar Artist ID, Score)`
pairs by key, keep the maximal score per key, and sort descending by
score. -/
def aggregate_similar_bands (l : List (Int × ℚ)) : List (Int × ℚ) :=
  List.insertionSort scoreDesc ((aggKeys l).map (fun k => (k, maxScoreFor l k)))

/-- Lines 103–110: the concatenation of the `Similar Artist ID`/`Score`
columns of all edges incident to `band_id` with the renamed
`Band ID`/`Score` columns of the reverse edges. -/
def completePairs (edges : List Edge) (band_id : Int) : List (Int × ℚ) :=
  (edges.filter (fun e => e.bandId == band_id || e.similarArtistId == band_id)).map
      (fun e => (e.similarArtistId, e.score)) ++
    (edges.filter (fun e => e.similarArtistId == band_id)).map (fun e => (e.bandId, e.score))

/-- Source `get_complete_similar_bands`: select the edges incident to
`band_id` in either direction, take their `Similar Artist ID` column, append
the `Band ID` column of the reverse edges (renamed), and aggregate. -/
def get_complete_similar_bands (edges : List Edge) (band_id : Int) : List (Int × ℚ) :=
  aggregate_similar_bands (completePairs edges band_id)

/-- The scores of the edges joining `band_id` and `x`, in either direction
(the spec's undirected incident edges for counterpart `x`). -/
def incidentScores (edges : List Edge) (band_id x : Int) : List ℚ :=
  (edges.filter (fun e =>
    (e.bandId == band_id && e.similarArtistId == x) ||
      (e.similarArtistId == band_id && e.bandId == x))).map (·.score)

/-- Line 138: `reindex(..., fill_value=0)` — look a band id up in the
aggregated table, falling back to `0` when it is absent. -/
def lookupScore (agg : List (Int × ℚ)) (v : Val) : ℚ :=
  ((agg.find? (fun p => Val.int p.1 == v)).map (·.2)).getD 0

/-- Line 138: the `Similar_Band_Score` column joined onto the candidate
table, one looked-up score per candidate `Band ID` cell. -/
def join_similar_scores (agg : List (Int × ℚ)) (ids : List Val) : List Val :=
  ids.map (fun v => Val.rat (lookupScore agg v))

/-! ### The record store and `preproc_data` (source lines 16–54) -/

/-- One row of `bands_df` (columns `Band Name`, `Country`, `Genre`,
`Band ID`), plus the `Processed Genre` column added by `process_genres`
(`none` before preprocessing). -/
structure BandRow where
  name : String
  country : String
  genre : String
  bandId : Int
  processed : Option (List String)
deriving DecidableEq, Repr

/-- One row of `lyrics_df` (columns `Band ID`, `Themes:`); `none` is a NaN
`Themes:` cell. -/
structure LyrRow where
  bandId : Int
  themes : Option String
deriving DecidableEq, Repr

/-- One row of `Datasets/Countries.csv`. -/
structure CountryRow where
  country : String
  longitude : ℚ
  latitude : ℚ
deriving DecidableEq, Repr

/-- The process-wide tables (module globals): `bands_df` and `lyrics_df`
are reassigned by `preproc_data` on every call; `similar_artists_df` and
the countries file are read-only. -/
structure Store where
  bands : List BandRow
  lyrics : List LyrRow
  similar : List Edge
  countries : List CountryRow
deriving Repr

/-- Python `str.strip()` on the character list of a string. -/
def trimC (l : List Char) : List Char :=
  ((l.dropWhile Char.isWhitespace).reverse.dropWhile Char.isWhitespace).reverse

/-- Python `str.split(',')`. -/
def splitC : List Char → List (List Char)
  | [] => [[]]
  | c :: cs =>
    match splitC cs with
    | [] => [[]]
    | t :: ts => if c = ',' then [] :: t :: ts else (c :: t) :: ts

/-- Python `', '.join(...)`. -/
def joinCS : List (List Char) → List Char
  | [] => []
  | [t] => t
  | t :: ts => t ++ ',' :: ' ' :: joinCS ts

/-- Python `str.lower()`. -/
def lowerC (l : List Char) : List Char := l.map Char.toLower

/-- Line 34's generator: the stripped, non-empty theme tokens of one
`Themes:` cell. -/
def themeTokens (l : List Char) : List (List Char) :=
  ((splitC l).map trimC).filter (fun t => t ≠ [])

/-- Lines 33–37: the `Themes:` preprocessing of `lyrics_df` — split each
cell on commas, strip the tokens and drop empty ones, re-join with `', '`,
drop NaN rows, drop empty-string rows, lowercase. -/
def preproc_lyrics (rows : List LyrRow) : List LyrRow :=
  let step1 := rows.map (fun r =>
    { r with themes := r.themes.map (fun s : String => String.mk (joinCS (themeTokens s.data))) })
  let step2 := step1.filter (fun r => r.themes.isSome)
  let step3 := step2.filter (fun r => r.themes != some "")
  step3.map (fun r => { r with themes := r.themes.map (fun s : String => String.mk (lowerC s.data)) })

/-- Model of `strip().lower()`, the normalization applied to the countries table's
name column (line 43). -/
def stripLower (s : String) : String := String.mk (lowerC (trimC s.data))

/-- Modelled from the spec: `CleanGenre.process_genres` is imported by the
source module but its file is not under `src/`.  Per §3 it derives, from
the raw `Genre` label, the processed genre tag set — normalized lowercase,
non-empty strings — while the raw label stays available for the Text
Similarity Engine. -/
def process_genre_tags (g : String) : List String :=
  (themeTokens (lowerC g.data)).map String.mk

/-- Modelled from the spec: the table-level `process_genres(bands_df,
'Genre')` (line 30) fills the `Processed Genre` column from the raw
`Genre` column. -/
def process_genres (rows : List BandRow) : List BandRow :=
  rows.map (fun r => { r with processed := some (process_genre_tags r.genre) })

/-- Modelled from the spec: `Cleancountry.standardize_country_name` is not
under `src/`; §1 describes it as country-name string normalization, matching
the `strip().lower()` normalization of the countries table it is joined
against (lines 43–50). -/
def standardize_country_name (c : String) : String := stripLower c

/-- Lines 40–52: inner-merge the processed bands table with the processed
lyrics table on `Band ID` (left-table order, every matching pair), then
left-merge the coordinates of the normalized countries table on the
standardized country name. -/
def mkMerged (bands : List BandRow) (lyrics : List LyrRow)
    (countries : List CountryRow) : DF :=
  let rows := bands.flatMap (fun b =>
    (lyrics.filter (fun l => l.bandId == b.bandId)).map (fun l => (b, l)))
  let crows := rows.map (fun p =>
    (p.1, p.2, countries.find? (fun c =>
      stripLower c.country == standardize_country_name p.1.country)))
  [("Band Name", crows.map (fun r => Val.str r.1.name)),
   ("Country", crows.map (fun r => Val.str r.1.country)),
   ("Genre", crows.map (fun r => Val.str r.1.genre)),
   ("Band ID", crows.map (fun r => Val.int r.1.bandId)),
   ("Processed Genre", crows.map (fun r =>
      match r.1.processed with
      | some g => Val.tags g
      | none => Val.nan)),
   ("Themes:", crows.map (fun r =>
      match r.2.1.themes with
      | some s => Val.str s
      | none => Val.nan)),
   ("country", crows.map (fun r =>
      match r.2.2 with
      | some c => Val.str (stripLower c.country)
      | none => Val.nan)),
   ("longitude", crows.map (fun r =>
      match r.2.2 with
      | some c => Val.rat c.longitude
      | none => Val.nan)),
   ("latitude", crows.map (fun r =>
      match r.2.2 with
      | some c => Val.rat c.latitude
      | none => Val.nan))]

/-- Source `preproc_data` (lines 26–54): reprocess the global bands and
lyrics tables, write them back to the globals, and build the merged frame
with coordinates. -/
def preproc_data (st : Store) : DF × Store :=
  let bands2 := process_genres st.bands
  let lyrics2 := preproc_lyrics st.lyrics
  (mkMerged bands2 lyrics2 st.countries,
    { st with bands := bands2, lyrics := lyrics2 })

/-! ### Generic data-frame lemmas -/

/-- Model of `selection.index[0]`: index of the first element satisfying `p`. -/
def firstIdx (p : α → Bool) : List α → Option Nat
  | [] => none
  | a :: t => if p a then some 0 else (firstIdx p t).map (· + 1)

/-! ### `calculate_similarity` (source lines 70–100)

The numeric kernel (TF-IDF over the text column, truncated SVD to
`min(20, vocabulary)` components, cosine similarity against the target row,
lines 77–92) is an external library computation; it enters as the parameter
`simFn texts band_idx i`, the similarity of row `i` to the target row
`band_idx`. -/

/-- Source `calculate_similarity`: on an empty frame print and return
(no mutation); otherwise read the text column (`KeyError` if absent), find
the positional index of the first row whose `Band ID` equals `band_id`
(`KeyError`/`IndexError` if impossible), append the per-row similarity
scores as the new column `'<column>_Similarity'`, and drop the original
`column` if (and only if) it is present. -/
def calculate_similarity (simFn : List Val → Nat → Nat → ℚ) (df : DF) (band_id : Int)
    (column : String) : Option DF :=
  if dfEmpty df then some df
  else
    (getCol? df column).bind (fun texts =>
      (getCol? df "Band ID").bind (fun ids =>
        (firstIdx (fun v => v == Val.int band_id) ids).map (fun band_idx =>
          let scores := (List.range (nRows df)).map (fun i => Val.rat (simFn texts band_idx i))
          let df2 := setCol df (column ++ "_Similarity") scores
          if (colNames df2).contains column then df2.filter (fun p => p.1 != column)
          else df2)))

/-! ### `nlargest` and the final selection (source lines 157–158)

`nlargest(n, col)` with the default `keep='first'` returns the `n` rows
with the largest value in `col`, ordered descending, ties resolved by
original position, and rows whose value is NaN dropped. -/

/-- Numeric cell reading for ranking; `none` is pandas NaN (excluded by
`nlargest`). -/
def valRat? (v : Val) : Option ℚ :=
  match v with
  | Val.rat q => some q
  | Val.int m => some ((m : ℚ))
  | _ => none

/-- Ranking order of `nlargest(..., keep='first')` on (original position,
score) pairs: strictly larger scores first, ties by original position. -/
def rankRel (a b : Nat × ℚ) : Prop := b.2 < a.2 ∨ (a.2 = b.2 ∧ a.1 ≤ b.1)

instance : DecidableRel rankRel := fun a b =>
  inferInstanceAs (Decidable (b.2 < a.2 ∨ (a.2 = b.2 ∧ a.1 ≤ b.1)))

instance : IsTotal (Nat × ℚ) rankRel := by
  constructor
  intro a b
  rcases lt_trichotomy a.2 b.2 with h | h | h
  · exact Or.inr (Or.inl h)
  · rcases Nat.le_total a.1 b.1 with h1 | h1
    · exact Or.inl (Or.inr ⟨h, h1⟩)
    · exact Or.inr (Or.inr ⟨h.symm, h1⟩)
  · exact Or.inl (Or.inl h)

instance : IsTrans (Nat × ℚ) rankRel := by
  constructor
  intro a b c hab hbc
  rcases hab with h1 | ⟨h1, h1i⟩
  · rcases hbc with h2 | ⟨h2, _⟩
    · exact Or.inl (h2.trans h1)
    · exact Or.inl (h2 ▸ h1)
  · rcases hbc with h2 | ⟨h2, h2i⟩
    · exact Or.inl (h1 ▸ h2)
    · exact Or.inr ⟨h1.trans h2, h1i.trans h2i⟩

/-- The original row positions selected by `nlargest n col`: drop NaN
scores, sort descending with ties in original order, take `n`. -/
def pickTopIdx (n : Nat) (scores : List (Option ℚ)) : List Nat :=
  ((List.insertionSort rankRel
    (scores.enum.filterMap (fun p => p.2.map (fun q => (p.1, q))))).take n).map (·.1)

/-- Row selection by original positions, applied to every column. -/
def selectRows (df : DF) (idx : List Nat) : DF :=
  df.map (fun p => (p.1, idx.filterMap (fun i => p.2.get? i)))

/-- Model of `df.nlargest(n, col)` (`KeyError` when `col` is absent). -/
def nlargestDF (n : Nat) (df : DF) (col : String) : Option DF :=
  (getCol? df col).map (fun vs => selectRows df (pickTopIdx n (vs.map valRat?)))

/-- Line 158: `overlap_bands_df[overlap_bands_df["Band ID"] != band_id]`
followed by `nlargest(10, 'Total_Score')`. -/
def select_top (df : DF) (band_id : Int) : Option DF :=
  (getCol? df "Band ID").bind (fun ids =>
    nlargestDF 10 (applyMask df (ids.map (fun v => v != Val.int band_id))) "Total_Score")

/-! ### `filter_by_genre_overlap` (source lines 56–68) -/

/-- Source `filter_by_genre_overlap`: select the rows whose `Band ID`
equals `band_id`; when none exist return the empty, column-less
`pd.DataFrame()`; otherwise read the first such row's `Processed Genre`
tag list and keep every row of the frame one of whose tags occurs in it
(`any(band_genre in genres for band_genre in band_genres)`). -/
def filter_by_genre_overlap (df : DF) (band_id : Int) : Option DF :=
  (getCol? df "Band ID").bind (fun ids =>
    match firstIdx (fun v => v == Val.int band_id) ids with
    | none => some []
    | some i =>
      (getCol? df "Processed Genre").map (fun gs =>
        let band_genres := valTags ((gs.get? i).getD Val.nan)
        applyMask df (gs.map (fun g => band_genres.any (fun t => (valTags g).contains t)))))

/-! ### The remaining pipeline steps and `get_recommendations`
(source lines 121–160) -/

/-- Modelled from the spec: `Cleancountry.add_geographic_similarity_to_band`
is not under `src/`.  Per §4.4 it adds a `Country_Similarity` column holding
a non-negative proximity score between the target band's coordinates and
each candidate's, computed by the external geographic kernel `geoFn`; per
§7 (`MissingGeoData`) a candidate with unresolved coordinates — and every
candidate when the target's own coordinates are unresolved — receives `0`. -/
def add_geographic_similarity_to_band (geoFn : ℚ × ℚ → ℚ × ℚ → ℚ) (df : DF)
    (band_id : Int) : Option DF :=
  (getCol? df "Band ID").bind (fun ids =>
    (getCol? df "longitude").bind (fun lons =>
      (getCol? df "latitude").map (fun lats =>
        let tcoord : Option (ℚ × ℚ) :=
          (firstIdx (fun v => v == Val.int band_id) ids).bind (fun i =>
            match lons.get? i, lats.get? i with
            | some (Val.rat lo), some (Val.rat la) => some (lo, la)
            | _, _ => none)
        setCol df "Country_Similarity" ((lons.zip lats).map (fun p =>
          match tcoord, p with
          | some t, (Val.rat lo, Val.rat la) => Val.rat (geoFn t (lo, la))
          | _, _ => Val.rat 0)))))

/-- Lines 143–146: replace one column by its min-max normalization (NaN
cells in the degenerate `max == min` case). -/
def normalizeColE (df : DF) (c : String) : Option DF :=
  (getCol? df c).map (fun vs =>
    setCol df c ((normalize_score (vs.map toRat)).map (fun o =>
      match o with
      | some q => Val.rat q
      | none => Val.nan)))

/-- Lines 148–153: the `Total_Score` column as the weighted sum of the four
normalized signals; a NaN operand makes the row's total NaN. -/
def totalScoreCol (df : DF) (genre_w lyrical_w similar_w country_w : ℚ) : Option DF :=
  (getCol? df "Themes:_Similarity").bind (fun th =>
    (getCol? df "Similar_Band_Score").bind (fun sb =>
      (getCol? df "Genre_Similarity").bind (fun ge =>
        (getCol? df "Country_Similarity").map (fun co =>
          setCol df "Total_Score" ((th.zip (sb.zip (ge.zip co))).map (fun p =>
            match p with
            | (Val.rat a, Val.rat b, Val.rat c, Val.rat d) =>
                Val.rat (lyrical_w * a + similar_w * b + genre_w * c + country_w * d)
            | _ => Val.nan))))))

/-- Source `get_recommendations` (lines 121–160), parameterized by the text
similarity kernel `simFn` and the geographic kernel `geoFn`.  Returns the
result (`none` when an exception propagates to the caller) together with
the process state the call leaves behind in the module globals. -/
def get_recommendations (simFn : List Val → Nat → Nat → ℚ) (geoFn : ℚ × ℚ → ℚ × ℚ → ℚ)
    (st : Store) (band_id : Int)
    (genre_weight lyrical_weight similar_weight country_weight : ℚ) :
    Option DF × Store :=
  let pre := preproc_data st
  let similar_bands := get_complete_similar_bands pre.2.similar band_id
  let result : Option DF :=
    (filter_by_genre_overlap pre.1 band_id).bind (fun df1 =>
      (dropColsE df1 ["Processed Genre"]).bind (fun df2 =>
        (calculate_similarity simFn df2 band_id "Genre").bind (fun df3 =>
          (calculate_similarity simFn df3 band_id "Themes:").bind (fun df4 =>
            (getCol? df4 "Band ID").bind (fun ids =>
              (add_geographic_similarity_to_band geoFn
                  (setCol df4 "Similar_Band_Score"
                    (join_similar_scores similar_bands ids)) band_id).bind (fun df5 =>
                (normalizeColE df5 "Themes:_Similarity").bind (fun df6 =>
                  (normalizeColE df6 "Genre_Similarity").bind (fun df7 =>
                    (normalizeColE df7 "Similar_Band_Score").bind (fun df8 =>
                      (normalizeColE df8 "Country_Similarity").bind (fun df9 =>
                        (totalScoreCol df9 genre_weight lyrical_weight similar_weight
                            country_weight).bind (fun df10 =>
                          (dropColsE df10 ["Themes:_Similarity", "Similar_Band_Score",
                              "Genre_Similarity", "Country_Similarity"]).bind (fun df11 =>
                            select_top df11 band_id))))))))))))
  (result, pre.2)

/-- A concrete, constant text-similarity kernel used to instantiate the
`simFn` parameter in witnesses. -/
def constSim : List Val → Nat → Nat → ℚ := fun _ _ _ => 1

/-- A concrete, constant geographic kernel used to instantiate the `geoFn`
parameter in witnesses. -/
def constGeo : ℚ × ℚ → ℚ × ℚ → ℚ := fun _ _ => 1

/-- A concrete record store with two candidate bands sharing a genre and no
similarity edges: every similarity signal is constant across the candidate
set. -/
def exampleStore : Store :=
  ⟨[⟨"A", "X", "metal", 1, none⟩, ⟨"B", "X", "metal", 2, none⟩],
    [⟨1, some "war"⟩, ⟨2, some "death"⟩], [], []⟩

/-! ### Theorems -/
theorem foldl_min_le_init (t : List ℚ) : ∀ a : ℚ, t.foldl min a ≤ a := by
  induction t with
  | nil => intro a; exact le_refl a
  | cons b t ih =>
    intro a
    calc (b :: t).foldl min a = t.foldl min (min a b) := rfl
    _ ≤ min a b := ih (min a b)
    _ ≤ a := min_le_left a b

theorem foldl_min_le_mem (t : List ℚ) : ∀ a x : ℚ, x ∈ t → t.foldl min a ≤ x := by
  induction t with
  | nil => intro a x hx; cases hx
  | cons b t ih =>
    intro a x hx
    rcases List.mem_cons.mp hx with h | h
    · subst h
      calc (x :: t).foldl min a = t.foldl min (min a x) := rfl
      _ ≤ min a x := foldl_min_le_init t (min a x)
      _ ≤ x := min_le_right a x
    · exact ih (min a b) x h

theorem init_le_foldl_max (t : List ℚ) : ∀ a : ℚ, a ≤ t.foldl max a := by
  induction t with
  | nil => intro a; exact le_refl a
  | cons b t ih =>
    intro a
    calc a ≤ max a b := le_max_left a b
    _ ≤ t.foldl max (max a b) := ih (max a b)
    _ = (b :: t).foldl max a := rfl

theorem mem_le_foldl_max (t : List ℚ) : ∀ a x : ℚ, x ∈ t → x ≤ t.foldl max a := by
  induction t with
  | nil => intro a x hx; cases hx
  | cons b t ih =>
    intro a x hx
    rcases List.mem_cons.mp hx with h | h
    · subst h
      calc x ≤ max a x := le_max_right a x
      _ ≤ t.foldl max (max a x) := init_le_foldl_max t (max a x)
      _ = (x :: t).foldl max a := rfl
    · exact ih (max a b) x h

theorem foldl_min_mem (t : List ℚ) : ∀ a : ℚ, t.foldl min a ∈ a :: t := by
  induction t with
  | nil => intro a; exact List.mem_singleton.mpr rfl
  | cons b t ih =>
    intro a
    have h := ih (min a b)
    rcases List.mem_cons.mp h with h | h
    · rcases min_choice a b with hc | hc <;> rw [show (b :: t).foldl min a = t.foldl min (min a b) from rfl, h, hc]
      · exact List.mem_cons_self a (b :: t)
      · exact List.mem_cons_of_mem a (List.mem_cons_self b t)
    · exact List.mem_cons_of_mem a (List.mem_cons_of_mem b h)

theorem foldl_max_mem (t : List ℚ) : ∀ a : ℚ, t.foldl max a ∈ a :: t := by
  induction t with
  | nil => intro a; exact List.mem_singleton.mpr rfl
  | cons b t ih =>
    intro a
    have h := ih (max a b)
    rcases List.mem_cons.mp h with h | h
    · rcases max_choice a b with hc | hc <;> rw [show (b :: t).foldl max a = t.foldl max (max a b) from rfl, h, hc]
      · exact List.mem_cons_self a (b :: t)
      · exact List.mem_cons_of_mem a (List.mem_cons_self b t)
    · exact List.mem_cons_of_mem a (List.mem_cons_of_mem b h)

theorem seriesMin_le {s : List ℚ} {x : ℚ} (hx : x ∈ s) : seriesMin s ≤ x := by
  cases s with
  | nil => cases hx
  | cons a t =>
    rcases List.mem_cons.mp hx with h | h
    · subst h; exact foldl_min_le_init t x
    · exact foldl_min_le_mem t a x h

theorem le_seriesMax {s : List ℚ} {x : ℚ} (hx : x ∈ s) : x ≤ seriesMax s := by
  cases s with
  | nil => cases hx
  | cons a t =>
    rcases List.mem_cons.mp hx with h | h
    · subst h; exact init_le_foldl_max t x
    · exact mem_le_foldl_max t a x h

theorem seriesMin_mem {s : List ℚ} (hs : s ≠ []) : seriesMin s ∈ s := by
  cases s with
  | nil => exact absurd rfl hs
  | cons a t => exact foldl_min_mem t a

theorem seriesMax_mem {s : List ℚ} (hs : s ≠ []) : seriesMax s ∈ s := by
  cases s with
  | nil => exact absurd rfl hs
  | cons a t => exact foldl_max_mem t a

/-- C1, evidence of the divergence: on a constant series (the degenerate
`max == min` case, including a single-candidate series) `normalize_score`
yields NaN in every entry instead of the constant `0` the design requires. -/
theorem normalize_score_degenerate_yields_nan :
    normalize_score [(1 : ℚ)/2, 1/2] = [none, none] ∧
    normalize_score [(3 : ℚ)] = [none] ∧
    normalize_score [(1 : ℚ)/2, 1/2] ≠ [some 0, some 0] := by
  refine ⟨?_, ?_, ?_⟩ <;> norm_num [normalize_score, seriesMin, seriesMax] <;> simp

/-- C7: on a non-degenerate series (`min ≠ max`) `normalize_score` is
exact min-max normalization: no entry is NaN, every value lies in `[0, 1]`,
and the values `0` and `1` are both attained (so the minimum and maximum of
the normalized signal are exactly `0` and `1`). -/
theorem normalize_score_nondegenerate_unit_range (s : List ℚ) (hne : s ≠ [])
    (hdeg : seriesMin s ≠ seriesMax s) :
    normalize_score s
      = s.map (fun x => some ((x - seriesMin s) / (seriesMax s - seriesMin s))) ∧
    (∀ x ∈ s, 0 ≤ (x - seriesMin s) / (seriesMax s - seriesMin s) ∧
        (x - seriesMin s) / (seriesMax s - seriesMin s) ≤ 1) ∧
    (∃ x ∈ s, (x - seriesMin s) / (seriesMax s - seriesMin s) = 0) ∧
    (∃ x ∈ s, (x - seriesMin s) / (seriesMax s - seriesMin s) = 1) := by
  have hlt : seriesMin s < seriesMax s := by
    have hle : seriesMin s ≤ seriesMax s := seriesMin_le (seriesMax_mem hne)
    exact lt_of_le_of_ne hle hdeg
  have hden : 0 < seriesMax s - seriesMin s := by linarith
  have hden' : seriesMax s - seriesMin s ≠ 0 := ne_of_gt hden
  refine ⟨?_, ?_, ?_, ?_⟩
  · unfold normalize_score
    exact List.map_congr_left (fun x _ => if_neg hden')
  · intro x hx
    constructor
    · exact div_nonneg (by have := seriesMin_le hx; linarith) (le_of_lt hden)
    · rw [div_le_one hden]
      have := le_seriesMax hx
      linarith
  · exact ⟨seriesMin s, seriesMin_mem hne, by simp⟩
  · exact ⟨seriesMax s, seriesMax_mem hne, by rw [div_self hden']⟩

/-- C7 witness: the theorem applied to the concrete series `[1, 3]`. -/
theorem normalize_score_nondegenerate_unit_range_witness :
    normalize_score [(1 : ℚ), 3] = [some 0, some 1] ∧
    (∀ x ∈ [(1 : ℚ), 3], 0 ≤ (x - seriesMin [(1 : ℚ), 3]) / (seriesMax [(1 : ℚ), 3] - seriesMin [(1 : ℚ), 3]) ∧
        (x - seriesMin [(1 : ℚ), 3]) / (seriesMax [(1 : ℚ), 3] - seriesMin [(1 : ℚ), 3]) ≤ 1) := by
  have h := normalize_score_nondegenerate_unit_range [(1 : ℚ), 3]
    (by simp) (by norm_num [seriesMin, seriesMax])
  refine ⟨?_, h.2.1⟩
  have h1 := h.1
  rw [h1]
  norm_num [seriesMin, seriesMax]

/-! ### Characterization of the aggregator -/

theorem find?_eq_head?_filter (p : α → Bool) : ∀ l : List α, l.find? p = (l.filter p).head? := by
  intro l
  induction l with
  | nil => rfl
  | cons a t ih =>
    by_cases h : p a
    · simp [List.find?_cons, List.filter_cons, h]
    · simp only [List.find?_cons, List.filter_cons, h]
      simpa [h] using ih

theorem seriesMax_congr_mem {s t : List ℚ} (hs : s ≠ []) (ht : t ≠ [])
    (h : ∀ q, q ∈ s ↔ q ∈ t) : seriesMax s = seriesMax t :=
  le_antisymm (le_seriesMax ((h _).mp (seriesMax_mem hs)))
    (le_seriesMax ((h _).mpr (seriesMax_mem ht)))

/-- The scores grouped under counterpart key `x ≠ band_id` in the
concatenated pair list are exactly the scores of the edges joining
`band_id` and `x` (in either direction). -/
theorem mem_completePairs_scores_iff (edges : List Edge) (bid x : Int) (hx : x ≠ bid)
    (q : ℚ) :
    q ∈ ((completePairs edges bid).filter (fun p => p.1 == x)).map (·.2) ↔
      q ∈ incidentScores edges bid x := by
  constructor
  · intro hq
    rcases List.mem_map.mp hq with ⟨p, hpf, hq2⟩
    rcases List.mem_filter.mp hpf with ⟨hpl, hpx⟩
    have hpx' : p.1 = x := beq_iff_eq.mp hpx
    rcases List.mem_append.mp hpl with hL | hR
    · rcases List.mem_map.mp hL with ⟨e, hef, hpe⟩
      rcases List.mem_filter.mp hef with ⟨he, hcond⟩
      simp only [Bool.or_eq_true, beq_iff_eq] at hcond
      rw [← hpe] at hpx' hq2
      simp only at hpx' hq2
      have hbid : e.bandId = bid := by
        rcases hcond with hb | hs
        · exact hb
        · exact absurd (hpx' ▸ hs) hx
      refine List.mem_map.mpr ⟨e, List.mem_filter.mpr ⟨he, ?_⟩, hq2⟩
      simp [hbid, hpx']
    · rcases List.mem_map.mp hR with ⟨e, hef, hpe⟩
      rcases List.mem_filter.mp hef with ⟨he, hcond⟩
      have hsaid : e.similarArtistId = bid := beq_iff_eq.mp hcond
      rw [← hpe] at hpx' hq2
      simp only at hpx' hq2
      refine List.mem_map.mpr ⟨e, List.mem_filter.mpr ⟨he, ?_⟩, hq2⟩
      simp [hsaid, hpx']
  · intro hq
    rcases List.mem_map.mp hq with ⟨e, hef, hq2⟩
    rcases List.mem_filter.mp hef with ⟨he, hcond⟩
    simp only [Bool.or_eq_true, Bool.and_eq_true, beq_iff_eq] at hcond
    rcases hcond with ⟨hb, hs⟩ | ⟨hs, hb⟩
    · refine List.mem_map.mpr ⟨(e.similarArtistId, e.score), List.mem_filter.mpr
        ⟨List.mem_append.mpr (Or.inl (List.mem_map.mpr ⟨e, List.mem_filter.mpr
          ⟨he, by simp [hb]⟩, rfl⟩)), by simp [hs]⟩, hq2⟩
    · refine List.mem_map.mpr ⟨(e.bandId, e.score), List.mem_filter.mpr
        ⟨List.mem_append.mpr (Or.inr (List.mem_map.mpr ⟨e, List.mem_filter.mpr
          ⟨he, by simp [hs]⟩, rfl⟩)), by simp [hb]⟩, hq2⟩

theorem filter_beq_of_nodup {l : List Int} (hl : l.Nodup) (x : Int) :
    l.filter (fun k => k == x) = if x ∈ l then [x] else [] := by
  induction l with
  | nil => simp
  | cons a t ih =>
    rcases List.nodup_cons.mp hl with ⟨ha, ht⟩
    by_cases h : a = x
    · subst h
      have h2 : List.filter (fun k => k == a) t = [] := by
        rw [ih ht, if_neg ha]
      simp [List.filter_cons, h2]
    · have h2 : ¬ x = a := fun hq => h hq.symm
      simp [List.filter_cons, beq_eq_false_iff_ne.mpr h, ih ht, h2]

/-- Core characterization: the row of the aggregated crowd-similarity table
keyed by a counterpart `x ≠ band_id` is unique and carries the maximal score
over all edges joining `band_id` and `x`; there is no such row when no
edge joins them. -/
theorem agg_filter_counterpart (edges : List Edge) (bid x : Int) (hx : x ≠ bid) :
    (get_complete_similar_bands edges bid).filter (fun p => p.1 == x)
      = if incidentScores edges bid x = [] then []
        else [(x, seriesMax (incidentScores edges bid x))] := by
  set l := completePairs edges bid with hl
  have hmem : ∀ q, q ∈ (l.filter (fun p => p.1 == x)).map (·.2) ↔
      q ∈ incidentScores edges bid x := mem_completePairs_scores_iff edges bid x hx
  have hperm : List.Perm ((get_complete_similar_bands edges bid).filter (fun p => p.1 == x))
      (((aggKeys l).map (fun k => (k, maxScoreFor l k))).filter (fun p => p.1 == x)) := by
    exact (List.perm_insertionSort scoreDesc _).filter _
  have hfil : (((aggKeys l).map (fun k => (k, maxScoreFor l k))).filter (fun p => p.1 == x))
      = ((aggKeys l).filter (fun k => k == x)).map (fun k => (k, maxScoreFor l k)) := by
    exact List.filter_map (fun k => (k, maxScoreFor l k)) (aggKeys l)
  have hnodup : (aggKeys l).Nodup := by
    unfold aggKeys
    exact ((List.perm_insertionSort _ _).nodup_iff).mpr (List.nodup_dedup _)
  have hkeys : x ∈ aggKeys l ↔ x ∈ l.map (·.1) := by
    rw [aggKeys, (List.perm_insertionSort (· ≤ ·) _).mem_iff, List.mem_dedup]
  have hinkeys : x ∈ l.map (·.1) ↔ incidentScores edges bid x ≠ [] := by
    constructor
    · rintro hxl h0
      rcases List.mem_map.mp hxl with ⟨p, hp, hpx⟩
      have : p.2 ∈ (l.filter (fun p => p.1 == x)).map (·.2) :=
        List.mem_map.mpr ⟨p, List.mem_filter.mpr ⟨hp, beq_iff_eq.mpr hpx⟩, rfl⟩
      rw [hmem p.2, h0] at this
      cases this
    · intro h0
      rcases List.exists_mem_of_ne_nil _ h0 with ⟨q, hq⟩
      rcases List.mem_map.mp ((hmem q).mpr hq) with ⟨p, hp, _⟩
      exact List.mem_map.mpr ⟨p, List.mem_filter.mp hp |>.1,
        beq_iff_eq.mp (List.mem_filter.mp hp |>.2)⟩
  rw [hfil, filter_beq_of_nodup hnodup] at hperm
  by_cases h0 : incidentScores edges bid x = []
  · rw [if_pos h0]
    have : x ∉ aggKeys l := fun hmem' => (hinkeys.mp (hkeys.mp hmem')) h0
    rw [if_neg this] at hperm
    simpa using hperm.eq_nil
  · rw [if_neg h0]
    have hxk : x ∈ aggKeys l := hkeys.mpr (hinkeys.mpr h0)
    rw [if_pos hxk] at hperm
    have hval : maxScoreFor l x = seriesMax (incidentScores edges bid x) := by
      have hfne : (l.filter (fun p => p.1 == x)).map (·.2) ≠ [] := by
        intro hnil
        rcases List.exists_mem_of_ne_nil _ h0 with ⟨q, hq⟩
        have := (hmem q).mpr hq
        rw [hnil] at this
        cases this
      exact seriesMax_congr_mem hfne h0 hmem
    rw [List.perm_singleton.mp hperm]
    simp [hval]

/-- C5: for every counterpart `x` of the target, the Crowd Similarity
Aggregator output contains exactly one entry for `x`, carrying the maximum
score over all edges joining the target and `x` in either direction, and no
entry when no such edge exists. -/
theorem aggregator_keeps_max_per_counterpart (edges : List Edge) (bid x : Int)
    (hx : x ≠ bid) :
    (incidentScores edges bid x ≠ [] →
      (get_complete_similar_bands edges bid).filter (fun p => p.1 == x)
        = [(x, seriesMax (incidentScores edges bid x))]) ∧
    (incidentScores edges bid x = [] →
      (get_complete_similar_bands edges bid).filter (fun p => p.1 == x) = []) := by
  have h := agg_filter_counterpart edges bid x hx
  constructor
  · intro h0; rwa [if_neg h0] at h
  · intro h0; rwa [if_pos h0] at h

/-- C5 witness: the spec scenario — edges `(target, X, 0.7)` and
`(X, target, 0.9)` yield exactly one entry for `X`, with score `0.9`. -/
theorem aggregator_keeps_max_per_counterpart_witness :
    (get_complete_similar_bands [⟨1, 2, 7/10⟩, ⟨2, 1, 9/10⟩] 1).filter (fun p => p.1 == 2)
      = [(2, 9/10)] := by
  have h := (aggregator_keeps_max_per_counterpart [⟨1, 2, 7/10⟩, ⟨2, 1, 9/10⟩] 1 2
    (by decide)).1 (by simp [incidentScores])
  rw [h]
  norm_num [incidentScores, seriesMax]

/-- C8: a candidate with no similarity edge to the target in either
direction receives the fallback crowd score `0` from the join of line 138,
while a candidate with at least one such edge receives the aggregated
maximum score; the joined column consists of exactly these looked-up
values. -/
theorem crowd_score_join_fallback (edges : List Edge) (bid c : Int) (hc : c ≠ bid) :
    (incidentScores edges bid c = [] →
      lookupScore (get_complete_similar_bands edges bid) (Val.int c) = 0) ∧
    (incidentScores edges bid c ≠ [] →
      lookupScore (get_complete_similar_bands edges bid) (Val.int c)
        = seriesMax (incidentScores edges bid c)) ∧
    ∀ ids : List Val, join_similar_scores (get_complete_similar_bands edges bid) ids
        = ids.map (fun v => Val.rat (lookupScore (get_complete_similar_bands edges bid) v)) := by
  have hpred : (fun p : Int × ℚ => Val.int p.1 == Val.int c) = (fun p : Int × ℚ => p.1 == c) := by
    funext p
    by_cases h : p.1 = c <;> simp [h]
  have hkey : lookupScore (get_complete_similar_bands edges bid) (Val.int c)
      = (((get_complete_similar_bands edges bid).filter
          (fun p => p.1 == c)).head?.map (·.2)).getD 0 := by
    rw [lookupScore, hpred, find?_eq_head?_filter]
  refine ⟨?_, ?_, fun ids => rfl⟩
  · intro h0
    rw [hkey, agg_filter_counterpart edges bid c hc, if_pos h0]
    rfl
  · intro h0
    rw [hkey, agg_filter_counterpart edges bid c hc, if_neg h0]
    rfl

theorem firstIdx_get? (p : α → Bool) : ∀ (l : List α) (i : Nat), firstIdx p l = some i →
    ∃ a, l.get? i = some a ∧ p a = true := by
  intro l
  induction l with
  | nil => intro i h; cases h
  | cons a t ih =>
    intro i h
    by_cases hp : p a
    · rw [firstIdx, if_pos hp] at h
      cases h
      exact ⟨a, rfl, hp⟩
    · rw [firstIdx, if_neg hp] at h
      rcases Option.map_eq_some'.mp h with ⟨j, hj, hji⟩
      rcases ih j hj with ⟨b, hb, hpb⟩
      exact ⟨b, by rw [← hji]; simpa using hb, hpb⟩

theorem find?_filter_of_imp {p q : α → Bool} (h : ∀ a, p a = true → q a = true) :
    ∀ l : List α, (l.filter q).find? p = l.find? p := by
  intro l
  induction l with
  | nil => rfl
  | cons a t ih =>
    by_cases hq : q a = true
    · by_cases hp : p a = true
      · simp [List.filter_cons, List.find?_cons, hq, hp]
      · simp [List.filter_cons, List.find?_cons, hq, hp, ih]
    · have hp : ¬ p a = true := fun hc => hq (h a hc)
      simp [List.filter_cons, List.find?_cons, hq, hp, ih]

theorem getCol?_filter_ne (df : DF) (column c : String) (hc : c ≠ column) :
    getCol? (df.filter (fun p => p.1 != column)) c = getCol? df c := by
  unfold getCol?
  rw [find?_filter_of_imp]
  intro p hp
  exact bne_iff_ne.mpr ((beq_iff_eq.mp hp) ▸ hc)

theorem getCol?_filter_self (df : DF) (column : String) :
    getCol? (df.filter (fun p => p.1 != column)) column = none := by
  unfold getCol?
  have h : (df.filter (fun p => p.1 != column)).find? (fun p => p.1 == column) = none := by
    rw [List.find?_eq_none]
    intro p hp hpc
    exact (bne_iff_ne.mp (List.mem_filter.mp hp).2) (beq_iff_eq.mp hpc)
  rw [h]
  rfl

theorem getCol?_append_of_some {df₁ : DF} (df₂ : DF) {c : String} {vs : List Val}
    (h : getCol? df₁ c = some vs) : getCol? (df₁ ++ df₂) c = some vs := by
  unfold getCol? at h ⊢
  rcases Option.map_eq_some'.mp h with ⟨p, hp, hpv⟩
  rw [List.find?_append, hp]
  simpa using hpv

theorem getCol?_append_of_none {df₁ : DF} (df₂ : DF) {c : String}
    (h : getCol? df₁ c = none) : getCol? (df₁ ++ df₂) c = getCol? df₂ c := by
  unfold getCol? at h ⊢
  have h1 : df₁.find? (fun p => p.1 == c) = none := by
    cases hf : df₁.find? (fun p => p.1 == c) with
    | none => rfl
    | some p => rw [hf] at h; cases h
  rw [List.find?_append, h1]
  rfl

theorem getCol?_eq_none_of_not_mem {df : DF} {c : String} (h : c ∉ colNames df) :
    getCol? df c = none := by
  unfold getCol?
  have h1 : df.find? (fun p => p.1 == c) = none := by
    rw [List.find?_eq_none]
    intro p hp hpc
    exact h (List.mem_map.mpr ⟨p, hp, beq_iff_eq.mp hpc⟩)
  rw [h1]
  rfl

theorem getCol?_singleton_self (s : String) (vs : List Val) :
    getCol? [(s, vs)] s = some vs := by
  unfold getCol?
  simp [List.find?_cons]

theorem mem_colNames_of_getCol? {df : DF} {c : String} {vs : List Val}
    (h : getCol? df c = some vs) : c ∈ colNames df := by
  unfold getCol? at h
  rcases Option.map_eq_some'.mp h with ⟨p, hp, _⟩
  have hps : p.1 = c := by
    have h2 := List.find?_some hp
    simpa using h2
  exact hps ▸ List.mem_map.mpr ⟨p, List.mem_of_find?_eq_some hp, rfl⟩

theorem ne_nil_of_mem_colNames {df : DF} {c : String} (h : c ∈ colNames df) : df ≠ [] := by
  intro hdf
  rw [hdf] at h
  cases h

theorem dfEmpty_eq_false_of {df : DF} {n : Nat} (hwf : WF df n) (hn : n ≠ 0)
    (hne : df ≠ []) : dfEmpty df = false := by
  cases df with
  | nil => exact absurd rfl hne
  | cons p t =>
    have hl := hwf p (List.mem_cons_self p t)
    show (p.2.length == 0) = false
    rw [hl]
    exact beq_eq_false_iff_ne.mpr hn

theorem nRows_eq {df : DF} {n : Nat} (hwf : WF df n) (hne : df ≠ []) : nRows df = n := by
  cases df with
  | nil => exact absurd rfl hne
  | cons p t => exact hwf p (List.mem_cons_self p t)

theorem maskList_sublist {α : Type} : ∀ (vs : List α) (mask : List Bool),
    List.Sublist (maskList vs mask) vs := by
  intro vs
  induction vs with
  | nil => intro mask; simp [maskList]
  | cons v t ih =>
    intro mask
    cases mask with
    | nil => simp [maskList]
    | cons b m =>
      cases b with
      | false =>
        exact List.Sublist.cons v (by simpa [maskList] using ih m)
      | true =>
        exact List.Sublist.cons₂ v (by simpa [maskList] using ih m)

theorem mem_maskList_of_get? {α : Type} : ∀ (vs : List α) (mask : List Bool) (i : Nat) (v : α),
    vs.get? i = some v → mask.get? i = some true → v ∈ maskList vs mask := by
  intro vs
  induction vs with
  | nil => intro mask i v hv _; cases i <;> cases hv
  | cons a t ih =>
    intro mask i v hv hm
    cases mask with
    | nil => cases i <;> cases hm
    | cons b m =>
      cases i with
      | zero =>
        cases hv; cases hm
        simp [maskList]
      | succ j =>
        have hrec := ih m j v hv hm
        cases b with
        | false => simpa [maskList] using hrec
        | true => simp [maskList]; right; simpa [maskList] using hrec

theorem getCol?_applyMask (df : DF) (mask : List Bool) (c : String) :
    getCol? (applyMask df mask) c = (getCol? df c).map (fun vs => maskList vs mask) := by
  unfold applyMask getCol?
  rw [List.find?_map]
  have hcomp : ((fun p : String × List Val => p.1 == c) ∘
      (fun p : String × List Val => (p.1, maskList p.2 mask)))
      = (fun p : String × List Val => p.1 == c) := rfl
  rw [hcomp]
  cases df.find? (fun p => p.1 == c) <;> rfl

/-- C8 witness: with the single edge `(1, 2, 3)`, candidate `5` (no edge)
receives `0` and candidate `2` receives the aggregated maximum `3`. -/
theorem crowd_score_join_fallback_witness :
    lookupScore (get_complete_similar_bands [⟨1, 2, 3⟩] 1) (Val.int 5) = 0 ∧
    lookupScore (get_complete_similar_bands [⟨1, 2, 3⟩] 1) (Val.int 2) = 3 := by
  constructor
  · exact (crowd_score_join_fallback [⟨1, 2, 3⟩] 1 5 (by decide)).1
      (by norm_num [incidentScores])
  · have h := (crowd_score_join_fallback [⟨1, 2, 3⟩] 1 2 (by decide)).2.1
      (by norm_num [incidentScores])
    rw [h]
    norm_num [incidentScores, seriesMax]

theorem colNames_filter_ne (df : DF) (column : String) :
    colNames (df.filter (fun p => p.1 != column))
      = (colNames df).filter (fun s => s != column) := by
  unfold colNames
  rw [List.filter_map]
  rfl

/-- C10: on a non-empty candidate table containing the target band and the
given text column, `calculate_similarity` succeeds and performs exactly this
mutation: it appends the single new column `'<column>_Similarity'` holding
the per-row similarity scores, removes the original text column, and leaves
every other column — hence the row set and the row order — and the row
count unchanged. -/
theorem calculate_similarity_frame (simFn : List Val → Nat → Nat → ℚ) (df : DF)
    (band_id : Int) (column : String) (n : Nat) (texts ids : List Val) (bi : Nat)
    (hwf : WF df n) (hn : n ≠ 0)
    (hcol : getCol? df column = some texts)
    (hids : getCol? df "Band ID" = some ids)
    (hfind : firstIdx (fun v => v == Val.int band_id) ids = some bi)
    (hsim : (column ++ "_Similarity") ∉ colNames df) :
    ∃ df', calculate_similarity simFn df band_id column = some df' ∧
      getCol? df' column = none ∧
      getCol? df' (column ++ "_Similarity")
        = some ((List.range n).map (fun i => Val.rat (simFn texts bi i))) ∧
      (∀ c, c ≠ column → c ≠ column ++ "_Similarity" → getCol? df' c = getCol? df c) ∧
      colNames df' = (colNames df).filter (fun s => s != column)
        ++ [column ++ "_Similarity"] ∧
      WF df' n := by
  have hmemc : column ∈ colNames df := mem_colNames_of_getCol? hcol
  have hne : df ≠ [] := ne_nil_of_mem_colNames hmemc
  have hemp : dfEmpty df = false := dfEmpty_eq_false_of hwf hn hne
  have hnr : nRows df = n := nRows_eq hwf hne
  have hsimne : column ++ "_Similarity" ≠ column := by
    intro hq
    have h1 := congrArg String.length hq
    rw [String.length_append] at h1
    have h2 : String.length "_Similarity" = 11 := rfl
    omega
  have hany : df.any (fun p => p.1 == (column ++ "_Similarity")) = false := by
    rw [Bool.eq_false_iff]
    intro hc
    rcases List.any_eq_true.mp hc with ⟨p, hp, hpe⟩
    have hpe2 : p.1 = column ++ "_Similarity" := by simpa using hpe
    exact hsim (List.mem_map.mpr ⟨p, hp, hpe2⟩)
  have hset : setCol df (column ++ "_Similarity")
        ((List.range (nRows df)).map (fun i => Val.rat (simFn texts bi i)))
      = df ++ [(column ++ "_Similarity",
          (List.range (nRows df)).map (fun i => Val.rat (simFn texts bi i)))] := by
    simp [setCol, hany]
  have hcont : (colNames (df ++ [(column ++ "_Similarity",
        (List.range (nRows df)).map (fun i => Val.rat (simFn texts bi i)))])).contains column
      = true := by
    have hmem2 : column ∈ colNames (df ++ [(column ++ "_Similarity",
        (List.range (nRows df)).map (fun i => Val.rat (simFn texts bi i)))]) := by
      unfold colNames
      rw [List.map_append]
      exact List.mem_append.mpr (Or.inl hmemc)
    simpa [List.elem_iff] using hmem2
  have hval : calculate_similarity simFn df band_id column
      = some ((df ++ [(column ++ "_Similarity",
          (List.range (nRows df)).map (fun i => Val.rat (simFn texts bi i)))]).filter
            (fun p => p.1 != column)) := by
    unfold calculate_similarity
    rw [hemp, hcol, hids]
    simp only [Bool.false_eq_true, if_false, Option.some_bind]
    rw [hfind]
    simp only [Option.map_some', hset, hcont, if_true]
  rw [hnr] at hval
  refine ⟨_, hval, getCol?_filter_self _ _, ?_, ?_, ?_, ?_⟩
  · rw [getCol?_filter_ne _ _ _ hsimne,
      getCol?_append_of_none _ (getCol?_eq_none_of_not_mem hsim),
      getCol?_singleton_self]
  · intro c hc1 hc2
    rw [getCol?_filter_ne _ _ _ hc1]
    cases hdf : getCol? df c with
    | some vs => rw [getCol?_append_of_some _ hdf]
    | none =>
      rw [getCol?_append_of_none _ hdf]
      exact getCol?_eq_none_of_not_mem (by simpa [colNames] using hc2)
  · rw [colNames_filter_ne]
    unfold colNames
    rw [List.map_append, List.filter_append]
    have h1 : List.filter (fun s => s != column)
        (List.map (fun p => p.1) [(column ++ "_Similarity",
          (List.range n).map (fun i => Val.rat (simFn texts bi i)))])
        = [column ++ "_Similarity"] := by
      simp [List.filter_cons, bne_iff_ne.mpr hsimne]
    rw [h1]
  · intro p hp
    have hp2 := List.mem_of_mem_filter hp
    rcases List.mem_append.mp hp2 with h | h
    · exact hwf p h
    · rcases List.mem_singleton.mp h with rfl
      simp

/-- C10 witness: the frame theorem applied to a concrete one-row table with
columns `Band ID` and `Genre`. -/
theorem calculate_similarity_frame_witness :
    ∃ df', calculate_similarity constSim
        [("Band ID", [Val.int 1]), ("Genre", [Val.str "death metal"])] 1 "Genre" = some df' ∧
      getCol? df' "Genre" = none ∧
      getCol? df' "Genre_Similarity"
        = some ((List.range 1).map (fun i => Val.rat (constSim [Val.str "death metal"] 0 i))) ∧
      (∀ c, c ≠ "Genre" → c ≠ "Genre_Similarity" →
        getCol? df' c = getCol? [("Band ID", [Val.int 1]),
          ("Genre", [Val.str "death metal"])] c) ∧
      colNames df' = (colNames [("Band ID", [Val.int 1]),
          ("Genre", [Val.str "death metal"])]).filter (fun s => s != "Genre")
        ++ ["Genre_Similarity"] ∧
      WF df' 1 :=
  calculate_similarity_frame constSim
    [("Band ID", [Val.int 1]), ("Genre", [Val.str "death metal"])] 1 "Genre" 1
    [Val.str "death metal"] [Val.int 1] 0
    (by unfold WF; decide) (by decide)
    rfl rfl (by decide) (by decide)

/-- C4: when the target band is present in the table, the genre-overlap
filter succeeds and keeps exactly the rows whose processed genre tag set
intersects the target's tag set non-emptily; each column is filtered by
that one mask, the surviving cells form a sublist of the original column
(candidate order is the stable input order), and the target band itself is
kept. -/
theorem genre_overlap_filter_spec (df : DF) (band_id : Int) (ids gs : List Val) (i : Nat)
    (gv : Val)
    (hids : getCol? df "Band ID" = some ids)
    (hgs : getCol? df "Processed Genre" = some gs)
    (hfind : firstIdx (fun v => v == Val.int band_id) ids = some i)
    (hgv : gs.get? i = some gv)
    (htne : valTags gv ≠ []) :
    ∃ df' mask, filter_by_genre_overlap df band_id = some df' ∧
      mask = gs.map (fun g => decide (∃ t, t ∈ valTags g ∧ t ∈ valTags gv)) ∧
      (∀ c vs, getCol? df c = some vs →
        getCol? df' c = some (maskList vs mask) ∧ List.Sublist (maskList vs mask) vs) ∧
      Val.int band_id ∈ maskList ids mask := by
  have hmaskeq : (fun g => (valTags gv).any (fun t => (valTags g).contains t))
      = (fun g => decide (∃ t, t ∈ valTags g ∧ t ∈ valTags gv)) := by
    funext g
    by_cases h : ∃ t, t ∈ valTags g ∧ t ∈ valTags gv
    · rcases h with ⟨t, htg, htv⟩
      have h1 : (valTags gv).any (fun t => (valTags g).contains t) = true :=
        List.any_eq_true.mpr ⟨t, htv, List.elem_iff.mpr htg⟩
      rw [h1, decide_eq_true ⟨t, htg, htv⟩]
    · have h1 : (valTags gv).any (fun t => (valTags g).contains t) = false := by
        rw [Bool.eq_false_iff]
        intro hc
        rcases List.any_eq_true.mp hc with ⟨t, htv, htg⟩
        exact h ⟨t, List.elem_iff.mp htg, htv⟩
      rw [h1, decide_eq_false h]
  have hval : filter_by_genre_overlap df band_id
      = some (applyMask df (gs.map
          (fun g => decide (∃ t, t ∈ valTags g ∧ t ∈ valTags gv)))) := by
    unfold filter_by_genre_overlap
    rw [hids, Option.some_bind, hfind]
    simp only [hgs, Option.map_some', hgv, Option.getD_some]
    rw [hmaskeq]
  refine ⟨_, _, hval, rfl, ?_, ?_⟩
  · intro c vs hvs
    constructor
    · rw [getCol?_applyMask, hvs]
      rfl
    · exact maskList_sublist vs _
  · have hid : ids.get? i = some (Val.int band_id) := by
      rcases firstIdx_get? _ ids i hfind with ⟨a, ha, hpa⟩
      have ha2 : a = Val.int band_id := by simpa using hpa
      rw [← ha2]
      exact ha
    have hmaski : (gs.map (fun g => decide (∃ t, t ∈ valTags g ∧ t ∈ valTags gv))).get? i
        = some true := by
      rw [List.get?_map, hgv, Option.map_some']
      rcases List.exists_mem_of_ne_nil _ htne with ⟨t, ht⟩
      rw [decide_eq_true ⟨t, ht, ht⟩]
    exact mem_maskList_of_get? ids _ i _ hid hmaski

theorem maskList_map {α β : Type} (f : α → β) :
    ∀ (l : List α) (mask : List Bool), maskList (l.map f) mask = (maskList l mask).map f := by
  intro l
  induction l with
  | nil => intro mask; rfl
  | cons a t ih =>
    intro mask
    cases mask with
    | nil => rfl
    | cons b m =>
      cases b with
      | false => simpa [maskList] using ih m
      | true => simpa [maskList] using ih m

theorem maskList_length_eq {α β : Type} {vs : List α} {ws : List β}
    (h : vs.length = ws.length) :
    ∀ mask : List Bool, (maskList vs mask).length = (maskList ws mask).length := by
  induction vs generalizing ws with
  | nil =>
    intro mask
    cases ws with
    | nil => rfl
    | cons w wt => cases h
  | cons a t ih =>
    intro mask
    cases ws with
    | nil => cases h
    | cons w wt =>
      cases mask with
      | nil => rfl
      | cons b m =>
        have h2 : t.length = wt.length := by simpa using h
        cases b with
        | false => simpa [maskList] using ih h2 m
        | true => simpa [maskList] using ih h2 m

theorem maskList_map_pred_length {α β : Type} (p : β → Bool) :
    ∀ (qs : List α) (ids : List β), qs.length = ids.length →
      (maskList qs (ids.map p)).length = ids.countP p := by
  intro qs
  induction qs with
  | nil =>
    intro ids h
    cases ids with
    | nil => rfl
    | cons i it => cases h
  | cons a t ih =>
    intro ids h
    cases ids with
    | nil => cases h
    | cons i it =>
      have h2 : t.length = it.length := by simpa using h
      by_cases hp : p i
      · simp [maskList, List.countP_cons, hp, ← ih it h2, maskList]
      · simp [maskList, List.countP_cons, hp, ← ih it h2, maskList]

theorem mem_maskList_self {α : Type} (p : α → Bool) :
    ∀ (l : List α) (v : α), v ∈ maskList l (l.map p) → p v = true := by
  intro l
  induction l with
  | nil => intro v hv; cases hv
  | cons a t ih =>
    intro v hv
    by_cases hp : p a
    · rw [show maskList (a :: t) ((a :: t).map p) = a :: maskList t (t.map p) by
        simp [maskList, hp]] at hv
      rcases List.mem_cons.mp hv with rfl | hv2
      · exact hp
      · exact ih v hv2
    · rw [show maskList (a :: t) ((a :: t).map p) = maskList t (t.map p) by
        simp [maskList, hp]] at hv
      exact ih v hv

theorem countP_bne_add_count (t : Val) :
    ∀ l : List Val, l.countP (fun v => v != t) + l.count t = l.length := by
  intro l
  induction l with
  | nil => rfl
  | cons a s ih =>
    by_cases h : a = t
    · subst h
      rw [List.countP_cons, List.count_cons]
      simp only [bne_self_eq_false, if_neg]
      simp [ih]
      omega
    · rw [List.countP_cons, List.count_cons]
      have h1 : (a != t) = true := bne_iff_ne.mpr h
      have h2 : (a == t) = false := beq_eq_false_iff_ne.mpr h
      simp [h1, h2]
      omega

theorem enumFrom_filterMap_some (l : List ℚ) :
    ∀ k : Nat, ((l.map some).enumFrom k).filterMap (fun p => p.2.map (fun q => (p.1, q)))
      = l.enumFrom k := by
  induction l with
  | nil => intro k; rfl
  | cons a t ih =>
    intro k
    show ((k, some a) :: (t.map some).enumFrom (k + 1)).filterMap
        (fun p => p.2.map (fun q => (p.1, q))) = (k, a) :: t.enumFrom (k + 1)
    rw [List.filterMap_cons]
    simp only [Option.map_some']
    rw [ih (k + 1)]

theorem enum_filterMap_some (l : List ℚ) :
    ((l.map some).enum).filterMap (fun p => p.2.map (fun q => (p.1, q))) = l.enum :=
  enumFrom_filterMap_some l 0

theorem getCol?_selectRows (df : DF) (idx : List Nat) (c : String) :
    getCol? (selectRows df idx) c
      = (getCol? df c).map (fun vs => idx.filterMap (fun i => vs.get? i)) := by
  unfold selectRows getCol?
  rw [List.find?_map]
  have hcomp : ((fun p : String × List Val => p.1 == c) ∘
      (fun p : String × List Val => (p.1, idx.filterMap (fun i => p.2.get? i))))
      = (fun p : String × List Val => p.1 == c) := rfl
  rw [hcomp]
  cases df.find? (fun p => p.1 == c) <;> rfl

theorem filterMap_get?_length {α : Type} :
    ∀ (idx : List Nat) (col : List α), (∀ i ∈ idx, i < col.length) →
      (idx.filterMap (fun i => col.get? i)).length = idx.length := by
  intro idx
  induction idx with
  | nil => intro col _; rfl
  | cons i t ih =>
    intro col h
    have hi : i < col.length := h i (List.mem_cons_self i t)
    rcases List.get?_eq_some.mpr ⟨hi, rfl⟩ with hg
    rw [List.filterMap_cons, hg]
    simp only [List.length_cons]
    rw [ih col (fun j hj => h j (List.mem_cons_of_mem i hj))]

theorem getCol?_length {df : DF} {n : Nat} {c : String} {vs : List Val}
    (hwf : WF df n) (h : getCol? df c = some vs) : vs.length = n := by
  unfold getCol? at h
  rcases Option.map_eq_some'.mp h with ⟨p, hp, hpv⟩
  rw [← hpv]
  exact hwf p (List.mem_of_find?_eq_some hp)

/-- C6 (amended): when every `Total_Score` cell is a defined number (no
degenerate-normalization NaN), the final selection of line 158 excludes the
target band, orders the selected rows by `Total_Score` descending with ties
broken by original candidate order, selects only largest-score rows, and
returns `min 10 (n - count of target rows)` rows. -/
theorem select_top_spec (df : DF) (band_id : Int) (ids ts : List Val) (qs : List ℚ)
    (n : Nat) (hwf : WF df n)
    (hids : getCol? df "Band ID" = some ids)
    (hts : getCol? df "Total_Score" = some ts)
    (hqs : ts = qs.map Val.rat) :
    ∃ df' sorted,
      select_top df band_id = some df' ∧
      List.Perm sorted (maskList qs (ids.map (fun v => v != Val.int band_id))).enum ∧
      List.Pairwise rankRel sorted ∧
      df' = selectRows (applyMask df (ids.map (fun v => v != Val.int band_id)))
        ((sorted.take 10).map (·.1)) ∧
      getCol? df' "Band ID" = some (((sorted.take 10).map (·.1)).filterMap
        (fun i => (maskList ids (ids.map (fun v => v != Val.int band_id))).get? i)) ∧
      (∀ v ∈ ((sorted.take 10).map (·.1)).filterMap
        (fun i => (maskList ids (ids.map (fun v => v != Val.int band_id))).get? i),
          v ≠ Val.int band_id) ∧
      nRows df' = min 10 (n - ids.count (Val.int band_id)) ∧
      (∀ a ∈ sorted.take 10, ∀ b ∈ sorted.drop 10, b.2 ≤ a.2) := by
  set mask := ids.map (fun v => v != Val.int band_id) with hmask
  set df₂ := applyMask df mask with hdf₂
  have hlen_ids : ids.length = n := getCol?_length hwf hids
  have hlen_ts : ts.length = n := getCol?_length hwf hts
  have hlen_qs : qs.length = n := by
    rw [hqs] at hlen_ts
    simpa using hlen_ts
  have hids₂ : getCol? df₂ "Band ID" = some (maskList ids mask) := by
    rw [hdf₂, getCol?_applyMask, hids]
    rfl
  have hts₂ : getCol? df₂ "Total_Score" = some ((maskList qs mask).map Val.rat) := by
    rw [hdf₂, getCol?_applyMask, hts, hqs, Option.map_some', maskList_map]
  set qs₂ := maskList qs mask with hqs₂
  set sorted := List.insertionSort rankRel qs₂.enum with hsorted
  have hperm : List.Perm sorted qs₂.enum := List.perm_insertionSort _ _
  have hpw : List.Pairwise rankRel sorted := List.sorted_insertionSort rankRel _
  set idx := (sorted.take 10).map (·.1) with hidx
  have hsel : select_top df band_id = some (selectRows df₂ idx) := by
    unfold select_top nlargestDF
    rw [hids, Option.some_bind, ← hmask, ← hdf₂, hts₂, Option.map_some']
    have h1 : (((maskList qs mask).map Val.rat).map valRat?) = qs₂.map some := by
      rw [List.map_map, ← hqs₂]
      rfl
    rw [h1]
    unfold pickTopIdx
    rw [enum_filterMap_some]
  have hwf₂ : WF df₂ qs₂.length := by
    intro p hp
    rcases List.mem_map.mp hp with ⟨p₀, hp₀, rfl⟩
    exact maskList_length_eq ((hwf p₀ hp₀).trans hlen_qs.symm) mask
  have hidx_lt : ∀ i ∈ idx, i < qs₂.length := by
    intro i hi
    rcases List.mem_map.mp hi with ⟨a, ha, rfl⟩
    have ha2 : a ∈ sorted := List.mem_of_mem_take ha
    have ha3 : a ∈ qs₂.enum := hperm.mem_iff.mp ha2
    have ha4 : qs₂.get? a.1 = some a.2 := List.mem_enum_iff_get?.mp ha3
    rcases List.get?_eq_some.mp ha4 with ⟨hlt, _⟩
    exact hlt
  have hlen_idx : idx.length = min 10 qs₂.length := by
    rw [hidx, List.length_map, List.length_take, hperm.length_eq, List.enum_length]
  have hwf' : WF (selectRows df₂ idx) idx.length := by
    intro p hp
    rcases List.mem_map.mp hp with ⟨p₀, hp₀, rfl⟩
    exact filterMap_get?_length idx p₀.2 (fun i hi => (hwf₂ p₀ hp₀) ▸ hidx_lt i hi)
  have hne : df ≠ [] := ne_nil_of_mem_colNames (mem_colNames_of_getCol? hids)
  have hne' : selectRows df₂ idx ≠ [] := by
    rw [hdf₂]
    unfold selectRows applyMask
    intro hc
    exact hne (List.map_eq_nil.mp (List.map_eq_nil.mp hc))
  have hnrows : nRows (selectRows df₂ idx) = idx.length := nRows_eq hwf' hne'
  have hq2len : qs₂.length = n - ids.count (Val.int band_id) := by
    rw [hqs₂, hmask, maskList_map_pred_length _ qs ids (hlen_ids ▸ hlen_qs)]
    have := countP_bne_add_count (Val.int band_id) ids
    omega
  have hexcl : ∀ v ∈ idx.filterMap (fun i => (maskList ids mask).get? i),
      v ≠ Val.int band_id := by
    intro v hv
    rcases List.mem_filterMap.mp hv with ⟨i, _, hget⟩
    have hvm : v ∈ maskList ids mask := List.get?_mem hget
    exact bne_iff_ne.mp (mem_maskList_self _ ids v (hmask ▸ hvm))
  have hids' : getCol? (selectRows df₂ idx) "Band ID"
      = some (idx.filterMap (fun i => (maskList ids mask).get? i)) := by
    rw [getCol?_selectRows, hids₂, Option.map_some']
  have hlarge : ∀ a ∈ sorted.take 10, ∀ b ∈ sorted.drop 10, b.2 ≤ a.2 := by
    intro a ha b hb
    have hpw2 : List.Pairwise rankRel (sorted.take 10 ++ sorted.drop 10) := by
      rw [List.take_append_drop]
      exact hpw
    rcases (List.pairwise_append.mp hpw2).2.2 a ha b hb with h | ⟨h, _⟩
    · exact le_of_lt h
    · exact le_of_eq h.symm
  refine ⟨_, sorted, hsel, hperm, hpw, rfl, hids', hexcl, ?_, hlarge⟩
  rw [hnrows, hlen_idx, hq2len]

/-- C6 counterexample: on `exampleStore`, every signal is constant across
the two candidates, the unguarded min-max normalization turns every total
into NaN, and `nlargest` then drops every row — the pipeline returns `0`
rows although `min 10 (|candidates| - 1) = min 10 (2 - 1) = 1`. -/
theorem final_output_length_counterexample :
    (filter_by_genre_overlap (preproc_data exampleStore).1 1).map nRows = some 2 ∧
    (get_recommendations constSim constGeo exampleStore 1 1 1 1 1).1.map nRows
      = some 0 := by
  constructor
  · rfl
  · have n1 : normalize_score [(1 : ℚ), 1] = [none, none] := by
      norm_num [normalize_score, seriesMin, seriesMax]
    have n0 : normalize_score [(0 : ℚ), 0] = [none, none] := by
      norm_num [normalize_score, seriesMin, seriesMax]
    have h7 : normalizeColE
        [("Band Name", [Val.str "A", Val.str "B"]),
         ("Country", [Val.str "X", Val.str "X"]),
         ("Band ID", [Val.int 1, Val.int 2]),
         ("country", [Val.nan, Val.nan]),
         ("longitude", [Val.nan, Val.nan]),
         ("latitude", [Val.nan, Val.nan]),
         ("Genre_Similarity", [Val.rat 1, Val.rat 1]),
         ("Themes:_Similarity", [Val.rat 1, Val.rat 1]),
         ("Similar_Band_Score", [Val.rat 0, Val.rat 0]),
         ("Country_Similarity", [Val.rat 0, Val.rat 0])] "Themes:_Similarity"
        = some
        [("Band Name", [Val.str "A", Val.str "B"]),
         ("Country", [Val.str "X", Val.str "X"]),
         ("Band ID", [Val.int 1, Val.int 2]),
         ("country", [Val.nan, Val.nan]),
         ("longitude", [Val.nan, Val.nan]),
         ("latitude", [Val.nan, Val.nan]),
         ("Genre_Similarity", [Val.rat 1, Val.rat 1]),
         ("Themes:_Similarity", [Val.nan, Val.nan]),
         ("Similar_Band_Score", [Val.rat 0, Val.rat 0]),
         ("Country_Similarity", [Val.rat 0, Val.rat 0])] := by
      unfold normalizeColE
      rw [show getCol? [("Band Name", [Val.str "A", Val.str "B"]),
         ("Country", [Val.str "X", Val.str "X"]),
         ("Band ID", [Val.int 1, Val.int 2]),
         ("country", [Val.nan, Val.nan]),
         ("longitude", [Val.nan, Val.nan]),
         ("latitude", [Val.nan, Val.nan]),
         ("Genre_Similarity", [Val.rat 1, Val.rat 1]),
         ("Themes:_Similarity", [Val.rat 1, Val.rat 1]),
         ("Similar_Band_Score", [Val.rat 0, Val.rat 0]),
         ("Country_Similarity", [Val.rat 0, Val.rat 0])] "Themes:_Similarity"
          = some [Val.rat 1, Val.rat 1] from rfl, Option.map_some']
      rw [show ([Val.rat 1, Val.rat 1].map toRat) = [(1 : ℚ), 1] from rfl, n1]
      rfl
    have h8 : normalizeColE
        [("Band Name", [Val.str "A", Val.str "B"]),
         ("Country", [Val.str "X", Val.str "X"]),
         ("Band ID", [Val.int 1, Val.int 2]),
         ("country", [Val.nan, Val.nan]),
         ("longitude", [Val.nan, Val.nan]),
         ("latitude", [Val.nan, Val.nan]),
         ("Genre_Similarity", [Val.rat 1, Val.rat 1]),
         ("Themes:_Similarity", [Val.nan, Val.nan]),
         ("Similar_Band_Score", [Val.rat 0, Val.rat 0]),
         ("Country_Similarity", [Val.rat 0, Val.rat 0])] "Genre_Similarity"
        = some
        [("Band Name", [Val.str "A", Val.str "B"]),
         ("Country", [Val.str "X", Val.str "X"]),
         ("Band ID", [Val.int 1, Val.int 2]),
         ("country", [Val.nan, Val.nan]),
         ("longitude", [Val.nan, Val.nan]),
         ("latitude", [Val.nan, Val.nan]),
         ("Genre_Similarity", [Val.nan, Val.nan]),
         ("Themes:_Similarity", [Val.nan, Val.nan]),
         ("Similar_Band_Score", [Val.rat 0, Val.rat 0]),
         ("Country_Similarity", [Val.rat 0, Val.rat 0])] := by
      unfold normalizeColE
      rw [show getCol? [("Band Name", [Val.str "A", Val.str "B"]),
         ("Country", [Val.str "X", Val.str "X"]),
         ("Band ID", [Val.int 1, Val.int 2]),
         ("country", [Val.nan, Val.nan]),
         ("longitude", [Val.nan, Val.nan]),
         ("latitude", [Val.nan, Val.nan]),
         ("Genre_Similarity", [Val.rat 1, Val.rat 1]),
         ("Themes:_Similarity", [Val.nan, Val.nan]),
         ("Similar_Band_Score", [Val.rat 0, Val.rat 0]),
         ("Country_Similarity", [Val.rat 0, Val.rat 0])] "Genre_Similarity"
          = some [Val.rat 1, Val.rat 1] from rfl, Option.map_some']
      rw [show ([Val.rat 1, Val.rat 1].map toRat) = [(1 : ℚ), 1] from rfl, n1]
      rfl
    have h9 : normalizeColE
        [("Band Name", [Val.str "A", Val.str "B"]),
         ("Country", [Val.str "X", Val.str "X"]),
         ("Band ID", [Val.int 1, Val.int 2]),
         ("country", [Val.nan, Val.nan]),
         ("longitude", [Val.nan, Val.nan]),
         ("latitude", [Val.nan, Val.nan]),
         ("Genre_Similarity", [Val.nan, Val.nan]),
         ("Themes:_Similarity", [Val.nan, Val.nan]),
         ("Similar_Band_Score", [Val.rat 0, Val.rat 0]),
         ("Country_Similarity", [Val.rat 0, Val.rat 0])] "Similar_Band_Score"
        = some
        [("Band Name", [Val.str "A", Val.str "B"]),
         ("Country", [Val.str "X", Val.str "X"]),
         ("Band ID", [Val.int 1, Val.int 2]),
         ("country", [Val.nan, Val.nan]),
         ("longitude", [Val.nan, Val.nan]),
         ("latitude", [Val.nan, Val.nan]),
         ("Genre_Similarity", [Val.nan, Val.nan]),
         ("Themes:_Similarity", [Val.nan, Val.nan]),
         ("Similar_Band_Score", [Val.nan, Val.nan]),
         ("Country_Similarity", [Val.rat 0, Val.rat 0])] := by
      unfold normalizeColE
      rw [show getCol? [("Band Name", [Val.str "A", Val.str "B"]),
         ("Country", [Val.str "X", Val.str "X"]),
         ("Band ID", [Val.int 1, Val.int 2]),
         ("country", [Val.nan, Val.nan]),
         ("longitude", [Val.nan, Val.nan]),
         ("latitude", [Val.nan, Val.nan]),
         ("Genre_Similarity", [Val.nan, Val.nan]),
         ("Themes:_Similarity", [Val.nan, Val.nan]),
         ("Similar_Band_Score", [Val.rat 0, Val.rat 0]),
         ("Country_Similarity", [Val.rat 0, Val.rat 0])] "Similar_Band_Score"
          = some [Val.rat 0, Val.rat 0] from rfl, Option.map_some']
      rw [show ([Val.rat 0, Val.rat 0].map toRat) = [(0 : ℚ), 0] from rfl, n0]
      rfl
    have h10 : normalizeColE
        [("Band Name", [Val.str "A", Val.str "B"]),
         ("Country", [Val.str "X", Val.str "X"]),
         ("Band ID", [Val.int 1, Val.int 2]),
         ("country", [Val.nan, Val.nan]),
         ("longitude", [Val.nan, Val.nan]),
         ("latitude", [Val.nan, Val.nan]),
         ("Genre_Similarity", [Val.nan, Val.nan]),
         ("Themes:_Similarity", [Val.nan, Val.nan]),
         ("Similar_Band_Score", [Val.nan, Val.nan]),
         ("Country_Similarity", [Val.rat 0, Val.rat 0])] "Country_Similarity"
        = some
        [("Band Name", [Val.str "A", Val.str "B"]),
         ("Country", [Val.str "X", Val.str "X"]),
         ("Band ID", [Val.int 1, Val.int 2]),
         ("country", [Val.nan, Val.nan]),
         ("longitude", [Val.nan, Val.nan]),
         ("latitude", [Val.nan, Val.nan]),
         ("Genre_Similarity", [Val.nan, Val.nan]),
         ("Themes:_Similarity", [Val.nan, Val.nan]),
         ("Similar_Band_Score", [Val.nan, Val.nan]),
         ("Country_Similarity", [Val.nan, Val.nan])] := by
      unfold normalizeColE
      rw [show getCol? [("Band Name", [Val.str "A", Val.str "B"]),
         ("Country", [Val.str "X", Val.str "X"]),
         ("Band ID", [Val.int 1, Val.int 2]),
         ("country", [Val.nan, Val.nan]),
         ("longitude", [Val.nan, Val.nan]),
         ("latitude", [Val.nan, Val.nan]),
         ("Genre_Similarity", [Val.nan, Val.nan]),
         ("Themes:_Similarity", [Val.nan, Val.nan]),
         ("Similar_Band_Score", [Val.nan, Val.nan]),
         ("Country_Similarity", [Val.rat 0, Val.rat 0])] "Country_Similarity"
          = some [Val.rat 0, Val.rat 0] from rfl, Option.map_some']
      rw [show ([Val.rat 0, Val.rat 0].map toRat) = [(0 : ℚ), 0] from rfl, n0]
      rfl
    have hpref : (get_recommendations constSim constGeo exampleStore 1 1 1 1 1).1
        = (normalizeColE
            [("Band Name", [Val.str "A", Val.str "B"]),
             ("Country", [Val.str "X", Val.str "X"]),
             ("Band ID", [Val.int 1, Val.int 2]),
             ("country", [Val.nan, Val.nan]),
             ("longitude", [Val.nan, Val.nan]),
             ("latitude", [Val.nan, Val.nan]),
             ("Genre_Similarity", [Val.rat 1, Val.rat 1]),
             ("Themes:_Similarity", [Val.rat 1, Val.rat 1]),
             ("Similar_Band_Score", [Val.rat 0, Val.rat 0]),
             ("Country_Similarity", [Val.rat 0, Val.rat 0])]
            "Themes:_Similarity").bind (fun df6 =>
          (normalizeColE df6 "Genre_Similarity").bind (fun df7 =>
            (normalizeColE df7 "Similar_Band_Score").bind (fun df8 =>
              (normalizeColE df8 "Country_Similarity").bind (fun df9 =>
                (totalScoreCol df9 1 1 1 1).bind (fun df10 =>
                  (dropColsE df10 ["Themes:_Similarity", "Similar_Band_Score",
                      "Genre_Similarity", "Country_Similarity"]).bind (fun df11 =>
                    select_top df11 1)))))) := rfl
    rw [hpref, h7, Option.some_bind, h8, Option.some_bind, h9, Option.some_bind,
      h10, Option.some_bind]
    rfl

/-- C6 witness: three candidates (target `1` scored `5`, candidates `2`
and `3` both scored `7`): the selection returns `min 10 (3 - 1) = 2`
rows. -/
theorem select_top_spec_witness :
    ∃ df', select_top [("Band ID", [Val.int 1, Val.int 2, Val.int 3]),
        ("Total_Score", [Val.rat 5, Val.rat 7, Val.rat 7])] 1 = some df' ∧
      nRows df' = 2 := by
  rcases select_top_spec [("Band ID", [Val.int 1, Val.int 2, Val.int 3]),
      ("Total_Score", [Val.rat 5, Val.rat 7, Val.rat 7])] 1
      [Val.int 1, Val.int 2, Val.int 3] [Val.rat 5, Val.rat 7, Val.rat 7]
      [5, 7, 7] 3
      (by unfold WF; decide) rfl rfl rfl with ⟨df', sorted, h1, _, _, _, _, _, h7, _⟩
  refine ⟨df', h1, ?_⟩
  rw [h7]
  rfl

/-- C2, divergence evidence: when the target band id does not occur in the
merged table, `filter_by_genre_overlap` returns the empty, column-less
`pd.DataFrame()`, and the unconditional
`drop(columns=['Processed Genre'])` of line 131 then raises `KeyError`;
the pipeline therefore raises instead of returning an empty result. -/
theorem get_recommendations_unknown_band_raises
    (simFn : List Val → Nat → Nat → ℚ) (geoFn : ℚ × ℚ → ℚ × ℚ → ℚ)
    (st : Store) (band_id : Int) (w1 w2 w3 w4 : ℚ) (ids : List Val)
    (hids : getCol? (preproc_data st).1 "Band ID" = some ids)
    (hfind : firstIdx (fun v => v == Val.int band_id) ids = none) :
    filter_by_genre_overlap (preproc_data st).1 band_id = some [] ∧
    dropColsE [] ["Processed Genre"] = none ∧
    (get_recommendations simFn geoFn st band_id w1 w2 w3 w4).1 = none := by
  have hfil : filter_by_genre_overlap (preproc_data st).1 band_id = some [] := by
    unfold filter_by_genre_overlap
    rw [hids, Option.some_bind, hfind]
  refine ⟨hfil, rfl, ?_⟩
  unfold get_recommendations
  simp only [hfil]
  rfl

/-- C2 witness: the theorem applied to a store in which band `115` (the
source module's own example target) does not occur. -/
theorem get_recommendations_unknown_band_raises_witness :
    filter_by_genre_overlap (preproc_data ⟨[], [], [], []⟩).1 115 = some [] ∧
    dropColsE [] ["Processed Genre"] = none ∧
    (get_recommendations constSim constGeo ⟨[], [], [], []⟩ 115
      (333/1000) (333/1000) (333/1000) (1/10)).1 = none :=
  get_recommendations_unknown_band_raises constSim constGeo ⟨[], [], [], []⟩ 115
    (333/1000) (333/1000) (333/1000) (1/10) [] rfl rfl

/-- C9: an edge whose `Similar Artist ID` endpoint is the target (here
`(5, 1, 1/2)` with target `1`) makes the aggregator emit a self-entry keyed
by the target itself — `(1, 1/2)` — next to the true counterpart entry;
only the final target-exclusion step of line 158 removes that row. -/
theorem aggregator_self_entry :
    get_complete_similar_bands [⟨5, 1, 1/2⟩] 1 = [(1, 1/2), (5, 1/2)] ∧
    (select_top [("Band ID", [Val.int 1, Val.int 5]),
        ("Total_Score", [Val.rat 1, Val.rat 1])] 1).bind
      (fun d => getCol? d "Band ID") = some [Val.int 5] := by
  constructor
  · norm_num [get_complete_similar_bands, completePairs, aggregate_similar_bands,
      aggKeys, maxScoreFor, seriesMax, scoreDesc, List.insertionSort,
      List.orderedInsert, List.dedup, List.pwFilter]
  · rfl

/-- C4 witness: the spec scenario — target `1` with tags `{death metal}`,
candidate `2` with tags `{death metal, doom}` kept, candidate `3` with tags
`{pop}` excluded, in stable input order with the target included. -/
theorem genre_overlap_filter_spec_witness :
    ∃ df', filter_by_genre_overlap
        [("Band ID", [Val.int 1, Val.int 2, Val.int 3]),
         ("Processed Genre", [Val.tags ["death metal"],
            Val.tags ["death metal", "doom"], Val.tags ["pop"]])] 1 = some df' ∧
      getCol? df' "Band ID" = some [Val.int 1, Val.int 2] := by
  rcases genre_overlap_filter_spec
      [("Band ID", [Val.int 1, Val.int 2, Val.int 3]),
       ("Processed Genre", [Val.tags ["death metal"],
          Val.tags ["death metal", "doom"], Val.tags ["pop"]])] 1
      [Val.int 1, Val.int 2, Val.int 3]
      [Val.tags ["death metal"], Val.tags ["death metal", "doom"], Val.tags ["pop"]]
      0 (Val.tags ["death metal"]) rfl rfl (by decide) rfl (by decide)
    with ⟨df', mask, h1, hm, h2, _⟩
  refine ⟨df', h1, ?_⟩
  have h3 := (h2 "Band ID" [Val.int 1, Val.int 2, Val.int 3] rfl).1
  rw [h3, hm]
  decide

/-! ### Idempotence of the theme preprocessing

`preproc_data` reprocesses the module-global tables on every call; the
following development shows the reprocessing is idempotent, so a repeated
call sees the same data. -/

theorem toLower_toNat_of_upper {c : Char} (h : c.toNat ≥ 65 ∧ c.toNat ≤ 90) :
    (Char.toLower c).toNat = c.toNat + 32 := by
  unfold Char.toLower
  simp only [if_pos h]
  have hv : (c.toNat + 32).isValidChar := Or.inl (by omega)
  unfold Char.ofNat
  rw [dif_pos hv]
  rfl

theorem toLower_not_upper {c : Char} (h : ¬(c.toNat ≥ 65 ∧ c.toNat ≤ 90)) :
    Char.toLower c = c := by
  show (if c.toNat ≥ 65 ∧ c.toNat ≤ 90 then Char.ofNat (c.toNat + 32) else c) = c
  rw [if_neg h]

theorem toLower_toLower (c : Char) : Char.toLower (Char.toLower c) = Char.toLower c := by
  by_cases h : c.toNat ≥ 65 ∧ c.toNat ≤ 90
  · have ht := toLower_toNat_of_upper h
    apply toLower_not_upper
    rw [ht]
    omega
  · rw [toLower_not_upper h]
    exact toLower_not_upper h

theorem toNat_of_isWhitespace {c : Char} (h : c.isWhitespace = true) :
    c.toNat = 32 ∨ c.toNat = 9 ∨ c.toNat = 13 ∨ c.toNat = 10 := by
  have h2 : ((c = ' ' ∨ c = '\t') ∨ c = '\x0d') ∨ c = '\n' := by
    simpa [Char.isWhitespace] using h
  rcases h2 with ((h2 | h2) | h2) | h2 <;> rw [h2] <;> simp

theorem isWhitespace_toLower (c : Char) :
    (Char.toLower c).isWhitespace = c.isWhitespace := by
  by_cases h : c.toNat ≥ 65 ∧ c.toNat ≤ 90
  · have ht := toLower_toNat_of_upper h
    have h1 : c.isWhitespace = false := by
      rw [Bool.eq_false_iff]
      intro hw
      rcases toNat_of_isWhitespace hw with h2 | h2 | h2 | h2 <;> omega
    have h2 : (Char.toLower c).isWhitespace = false := by
      rw [Bool.eq_false_iff]
      intro hw
      rcases toNat_of_isWhitespace hw with h2 | h2 | h2 | h2 <;> omega
    rw [h1, h2]
  · rw [toLower_not_upper h]

theorem toLower_eq_comma {c : Char} (h : Char.toLower c = ',') : c = ',' := by
  by_cases hu : c.toNat ≥ 65 ∧ c.toNat ≤ 90
  · have ht := toLower_toNat_of_upper hu
    have h44 : (Char.toLower c).toNat = 44 := by rw [h]; rfl
    omega
  · rwa [toLower_not_upper hu] at h

theorem toLower_comma : Char.toLower ',' = ',' := by
  apply toLower_not_upper
  intro h
  have : (',').toNat = 44 := rfl
  omega

theorem toLower_space : Char.toLower ' ' = ' ' := by
  apply toLower_not_upper
  intro h
  have : (' ').toNat = 32 := rfl
  omega

theorem dropWhile_idem (p : α → Bool) : ∀ l : List α, (l.dropWhile p).dropWhile p = l.dropWhile p := by
  intro l
  induction l with
  | nil => rfl
  | cons a t ih =>
    by_cases h : p a
    · simp [List.dropWhile_cons, h, ih]
    · simp [List.dropWhile_cons, h]

theorem head_false_of_dropWhile_eq {p : α → Bool} {a : α} {t : List α}
    (h : (a :: t).dropWhile p = a :: t) : p a = false := by
  by_cases hp : p a
  · rw [List.dropWhile_cons, if_pos hp] at h
    have h1 := congrArg List.length h
    have h2 : (t.dropWhile p).length ≤ t.length := (List.dropWhile_sublist p).length_le
    simp at h1
    omega
  · simp [hp]

theorem noLead_reverse_dropWhile {p : α → Bool} {u : List α} (hu : u.dropWhile p = u) :
    ((u.reverse.dropWhile p).reverse).dropWhile p = (u.reverse.dropWhile p).reverse := by
  cases hvr : (u.reverse.dropWhile p).reverse with
  | nil => simp [hvr]
  | cons a t =>
    have h1 : u.reverse.takeWhile p ++ u.reverse.dropWhile p = u.reverse :=
      List.takeWhile_append_dropWhile p u.reverse
    have h2 : (u.reverse.dropWhile p).reverse ++ (u.reverse.takeWhile p).reverse = u := by
      have h3 := congrArg List.reverse h1
      rwa [List.reverse_append, List.reverse_reverse] at h3
    rw [hvr] at h2
    have hcons : u = a :: t ++ (u.reverse.takeWhile p).reverse := h2.symm
    have hnl := hu
    rw [hcons] at hnl
    have hnl2 : (a :: (t ++ (u.reverse.takeWhile p).reverse)).dropWhile p
        = a :: (t ++ (u.reverse.takeWhile p).reverse) := hnl
    have ha : p a = false := head_false_of_dropWhile_eq hnl2
    rw [List.dropWhile_cons, ha]
    simp

theorem trimC_noLead (l : List Char) :
    (trimC l).dropWhile Char.isWhitespace = trimC l := by
  show ((((l.dropWhile Char.isWhitespace).reverse.dropWhile
      Char.isWhitespace).reverse).dropWhile Char.isWhitespace)
    = ((l.dropWhile Char.isWhitespace).reverse.dropWhile Char.isWhitespace).reverse
  exact noLead_reverse_dropWhile (dropWhile_idem Char.isWhitespace l)

theorem trimC_idem (l : List Char) : trimC (trimC l) = trimC l := by
  show (((trimC l).dropWhile Char.isWhitespace).reverse.dropWhile
      Char.isWhitespace).reverse = trimC l
  rw [trimC_noLead l]
  have h2 : (trimC l).reverse
      = (l.dropWhile Char.isWhitespace).reverse.dropWhile Char.isWhitespace := by
    unfold trimC
    rw [List.reverse_reverse]
  rw [h2, dropWhile_idem, ← h2, List.reverse_reverse]

theorem trimC_cons_ws {c : Char} (h : c.isWhitespace = true) (l : List Char) :
    trimC (c :: l) = trimC l := by
  unfold trimC
  rw [List.dropWhile_cons, if_pos h]

theorem mem_of_mem_trimC {a : Char} {l : List Char} (h : a ∈ trimC l) : a ∈ l := by
  unfold trimC at h
  rw [List.mem_reverse] at h
  have h2 := (List.dropWhile_sublist Char.isWhitespace).mem h
  rw [List.mem_reverse] at h2
  exact (List.dropWhile_sublist Char.isWhitespace).mem h2

theorem splitC_cons (c : Char) (cs : List Char) :
    splitC (c :: cs) = match splitC cs with
      | [] => [[]]
      | t :: ts => if c = ',' then [] :: t :: ts else (c :: t) :: ts := rfl

theorem splitC_ne_nil : ∀ l : List Char, splitC l ≠ [] := by
  intro l
  cases l with
  | nil => simp [splitC]
  | cons c cs =>
    rw [splitC_cons]
    cases h : splitC cs with
    | nil => simp
    | cons t ts =>
      by_cases hc : c = ','
      · simp [hc]
      · simp [hc]

theorem splitC_append_of_not_mem {t : List Char} (ht : ',' ∉ t) :
    ∀ {l : List Char} {s : List Char} {ss : List (List Char)},
      splitC l = s :: ss → splitC (t ++ l) = (t ++ s) :: ss := by
  induction t with
  | nil => intro l s ss h; simpa using h
  | cons c u ih =>
    intro l s ss h
    have hc : c ≠ ',' := fun hq => ht (hq ▸ List.mem_cons_self c u)
    have hu : ',' ∉ u := fun hq => ht (List.mem_cons_of_mem c hq)
    have h2 := ih hu h
    show splitC (c :: (u ++ l)) = (c :: (u ++ s)) :: ss
    rw [splitC_cons, h2]
    simp [hc]

theorem not_mem_comma_of_mem_splitC : ∀ (l : List Char) (s : List Char),
    s ∈ splitC l → ',' ∉ s := by
  intro l
  induction l with
  | nil =>
    intro s hs
    have : s = [] := by simpa [splitC] using hs
    simp [this]
  | cons c cs ih =>
    intro s hs
    rw [splitC_cons] at hs
    cases h : splitC cs with
    | nil => exact absurd h (splitC_ne_nil cs)
    | cons t ts =>
      rw [h] at hs
      simp only [] at hs
      by_cases hc : c = ','
      · rw [if_pos hc] at hs
        rcases List.mem_cons.mp hs with rfl | hs2
        · simp
        · exact ih s (h ▸ hs2)
      · rw [if_neg hc] at hs
        rcases List.mem_cons.mp hs with rfl | hs2
        · intro hmem
          rcases List.mem_cons.mp hmem with hq | hq
          · exact hc hq.symm
          · exact ih t (h ▸ List.mem_cons_self t ts) hq
        · exact ih s (h ▸ List.mem_cons_of_mem t hs2)

theorem splitC_joinCS : ∀ (t : List Char) (ts : List (List Char)), ',' ∉ t →
    (∀ u ∈ ts, ',' ∉ u) →
    splitC (joinCS (t :: ts)) = t :: ts.map (fun u => ' ' :: u) := by
  intro t ts
  induction ts generalizing t with
  | nil =>
    intro ht _
    have h := splitC_append_of_not_mem ht (show splitC [] = [] :: [] from rfl)
    rw [List.append_nil] at h
    exact h
  | cons t₂ ts₂ ih =>
    intro ht hts
    have h2 := ih t₂ (hts t₂ (List.mem_cons_self t₂ ts₂))
      (fun u hu => hts u (List.mem_cons_of_mem t₂ hu))
    have h3 : splitC (' ' :: joinCS (t₂ :: ts₂)) = (' ' :: t₂) :: ts₂.map (fun u => ' ' :: u) := by
      rw [splitC_cons, h2]
      simp
    have h4 : splitC (',' :: ' ' :: joinCS (t₂ :: ts₂))
        = [] :: (' ' :: t₂) :: ts₂.map (fun u => ' ' :: u) := by
      rw [splitC_cons, h3]
      simp
    have h5 := splitC_append_of_not_mem ht h4
    rw [List.append_nil] at h5
    exact h5

theorem lowerC_joinCS : ∀ ts : List (List Char), lowerC (joinCS ts) = joinCS (ts.map lowerC) := by
  intro ts
  match ts with
  | [] => rfl
  | [t] => rfl
  | t :: t₂ :: rest =>
    show lowerC (t ++ ',' :: ' ' :: joinCS (t₂ :: rest))
      = lowerC t ++ ',' :: ' ' :: joinCS ((t₂ :: rest).map lowerC)
    rw [show lowerC (t ++ ',' :: ' ' :: joinCS (t₂ :: rest))
        = lowerC t ++ Char.toLower ',' :: Char.toLower ' ' :: lowerC (joinCS (t₂ :: rest)) by
      simp [lowerC]]
    rw [toLower_comma, toLower_space, lowerC_joinCS (t₂ :: rest)]

theorem joinCS_ne_nil {t : List Char} (ht : t ≠ []) (ts : List (List Char)) :
    joinCS (t :: ts) ≠ [] := by
  cases ts with
  | nil => exact ht
  | cons t₂ ts₂ =>
    show t ++ ',' :: ' ' :: joinCS (t₂ :: ts₂) ≠ []
    simp

theorem lowerC_lowerC (l : List Char) : lowerC (lowerC l) = lowerC l := by
  unfold lowerC
  rw [List.map_map]
  exact List.map_congr_left (fun a _ => toLower_toLower a)

theorem dropWhile_lowerC (l : List Char) :
    (lowerC l).dropWhile Char.isWhitespace = lowerC (l.dropWhile Char.isWhitespace) := by
  induction l with
  | nil => rfl
  | cons a t ih =>
    show (Char.toLower a :: lowerC t).dropWhile Char.isWhitespace = _
    rw [List.dropWhile_cons, isWhitespace_toLower a, List.dropWhile_cons]
    by_cases h : a.isWhitespace
    · simpa [h] using ih
    · simp [h, lowerC]

theorem trimC_lowerC (l : List Char) : trimC (lowerC l) = lowerC (trimC l) := by
  unfold trimC
  rw [dropWhile_lowerC]
  rw [show (lowerC (l.dropWhile Char.isWhitespace)).reverse
      = lowerC ((l.dropWhile Char.isWhitespace).reverse) by simp [lowerC, List.map_reverse]]
  rw [dropWhile_lowerC]
  simp [lowerC, List.map_reverse]

theorem not_mem_comma_lowerC {l : List Char} (h : ',' ∉ l) : ',' ∉ lowerC l := by
  intro hc
  rcases List.mem_map.mp hc with ⟨a, ha, haeq⟩
  exact h ((toLower_eq_comma haeq) ▸ ha)

theorem themeTokens_spec (l : List Char) :
    ∀ t ∈ themeTokens l, t ≠ [] ∧ trimC t = t ∧ ',' ∉ t := by
  intro t ht
  rcases List.mem_filter.mp ht with ⟨hmem, hne⟩
  rcases List.mem_map.mp hmem with ⟨s, hs, rfl⟩
  refine ⟨by simpa using hne, trimC_idem s, ?_⟩
  intro hc
  exact not_mem_comma_of_mem_splitC l s hs (mem_of_mem_trimC hc)

theorem themeTokens_joinCS {ts : List (List Char)} (hne : ts ≠ [])
    (htok : ∀ t ∈ ts, t ≠ [] ∧ trimC t = t ∧ ',' ∉ t) :
    themeTokens (joinCS ts) = ts := by
  cases ts with
  | nil => exact absurd rfl hne
  | cons t ts' =>
    unfold themeTokens
    rw [splitC_joinCS t ts' (htok t (List.mem_cons_self t ts')).2.2
      (fun u hu => (htok u (List.mem_cons_of_mem t hu)).2.2)]
    have hmap : (t :: ts'.map (fun u => ' ' :: u)).map trimC = (t :: ts').map trimC := by
      simp only [List.map_cons, List.map_map]
      have h7 : ts'.map (trimC ∘ fun u => ' ' :: u) = ts'.map trimC :=
        List.map_congr_left (fun u _ => trimC_cons_ws (by rfl) u)
      rw [h7]
    rw [hmap]
    have hmap2 : (t :: ts').map trimC = t :: ts' := by
      have h6 : (t :: ts').map trimC = (t :: ts').map id :=
        List.map_congr_left (fun u hu => (htok u hu).2.1)
      rw [h6, List.map_id]
    rw [hmap2]
    rw [List.filter_eq_self.mpr]
    intro u hu
    simpa using (htok u hu).1

theorem procTheme_idem {ts : List (List Char)} (hne : ts ≠ [])
    (htok : ∀ t ∈ ts, t ≠ [] ∧ trimC t = t ∧ ',' ∉ t) :
    joinCS (themeTokens (lowerC (joinCS ts))) = lowerC (joinCS ts) := by
  have h1 : ts.map lowerC ≠ [] := by simpa using hne
  have h2 : ∀ t ∈ ts.map lowerC, t ≠ [] ∧ trimC t = t ∧ ',' ∉ t := by
    intro t ht
    rcases List.mem_map.mp ht with ⟨u, hu, rfl⟩
    rcases htok u hu with ⟨hu1, hu2, hu3⟩
    refine ⟨by simpa [lowerC] using hu1, ?_, not_mem_comma_lowerC hu3⟩
    rw [trimC_lowerC, hu2]
  rw [lowerC_joinCS, @themeTokens_joinCS (ts.map lowerC) h1 h2, ← lowerC_joinCS]

/-- Every row surviving `preproc_lyrics` carries a theme cell in normal
form: the lowercased comma-space join of a non-empty list of non-empty,
trimmed, comma-free tokens. -/
theorem preproc_lyrics_normal (rows : List LyrRow) :
    ∀ r ∈ preproc_lyrics rows, ∃ ts : List (List Char), ts ≠ [] ∧
      (∀ t ∈ ts, t ≠ [] ∧ trimC t = t ∧ ',' ∉ t) ∧
      r.themes = some (String.mk (lowerC (joinCS ts))) := by
  intro r hr
  unfold preproc_lyrics at hr
  rcases List.mem_map.mp hr with ⟨r₃, hr₃, rfl⟩
  rcases List.mem_filter.mp hr₃ with ⟨hr₂, hne3⟩
  rcases List.mem_filter.mp hr₂ with ⟨hr₁, hsome⟩
  rcases List.mem_map.mp hr₁ with ⟨r₀, _, rfl⟩
  rcases r₀ with ⟨b₀, th₀⟩
  rcases th₀ with _ | s₀
  · cases hsome
  · refine ⟨themeTokens s₀.data, ?_, themeTokens_spec s₀.data, rfl⟩
    intro hnil
    have hne3b : String.mk (joinCS (themeTokens s₀.data)) ≠ "" := by
      intro hq
      have h7 : (some (String.mk (joinCS (themeTokens s₀.data))) != some "") = true := hne3
      exact absurd hq (bne_iff_ne.mp h7 ∘ congrArg some)
    apply hne3b
    rw [hnil]
    rfl

/-- The lyrics preprocessing of lines 33–37 is idempotent: re-running it on
its own output changes nothing. -/
theorem preproc_lyrics_idem (rows : List LyrRow) :
    preproc_lyrics (preproc_lyrics rows) = preproc_lyrics rows := by
  have hnf := preproc_lyrics_normal rows
  have hrow : ∀ r ∈ preproc_lyrics rows,
      r.themes.map (fun s : String => String.mk (joinCS (themeTokens s.data))) = r.themes ∧
      r.themes.isSome = true ∧
      (r.themes != some "") = true ∧
      r.themes.map (fun s : String => String.mk (lowerC s.data)) = r.themes := by
    intro r hr
    rcases hnf r hr with ⟨ts, hts, htok, hth⟩
    have hj : joinCS (themeTokens (lowerC (joinCS ts))) = lowerC (joinCS ts) :=
      procTheme_idem hts htok
    have hne2 : lowerC (joinCS ts) ≠ [] := by
      cases ts with
      | nil => exact absurd rfl hts
      | cons t ts' =>
        have h9 := joinCS_ne_nil (htok t (List.mem_cons_self t ts')).1 ts'
        simpa [lowerC] using h9
    refine ⟨?_, ?_, ?_, ?_⟩
    · rw [hth]
      show some (String.mk (joinCS (themeTokens (lowerC (joinCS ts))))) = _
      rw [hj]
    · rw [hth]
      rfl
    · rw [hth]
      apply bne_iff_ne.mpr
      intro hq
      apply hne2
      have h8 := Option.some.inj hq
      have h8b := congrArg String.data h8
      simpa using h8b
    · rw [hth]
      show some (String.mk (lowerC (String.mk (lowerC (joinCS ts))).data)) = _
      rw [show (String.mk (lowerC (joinCS ts))).data = lowerC (joinCS ts) from rfl,
        lowerC_lowerC]
  have e1 : (preproc_lyrics rows).map (fun r =>
      { r with themes := (r.themes.map
        (fun s : String => String.mk (joinCS (themeTokens s.data)))) }) = preproc_lyrics rows := by
    have h5 : ∀ r ∈ preproc_lyrics rows, (fun r : LyrRow =>
        { r with themes := (r.themes.map
          (fun s : String => String.mk (joinCS (themeTokens s.data)))) }) r = id r := by
      intro r hr
      have h := (hrow r hr).1
      cases r with
      | mk b th =>
        simp only [LyrRow.mk.injEq, id]
        exact ⟨trivial, h⟩
    rw [List.map_congr_left h5, List.map_id]
  have e4 : (preproc_lyrics rows).map (fun r =>
      { r with themes := (r.themes.map
        (fun s : String => String.mk (lowerC s.data))) }) = preproc_lyrics rows := by
    have h5 : ∀ r ∈ preproc_lyrics rows, (fun r : LyrRow =>
        { r with themes := (r.themes.map
          (fun s : String => String.mk (lowerC s.data))) }) r = id r := by
      intro r hr
      have h := (hrow r hr).2.2.2
      cases r with
      | mk b th =>
        simp only [LyrRow.mk.injEq, id]
        exact ⟨trivial, h⟩
    rw [List.map_congr_left h5, List.map_id]
  show ((((preproc_lyrics rows).map (fun r : LyrRow =>
      { r with themes := (r.themes.map
        (fun s : String => String.mk (joinCS (themeTokens s.data)))) })).filter
          (fun r : LyrRow => r.themes.isSome)).filter
            (fun r : LyrRow => r.themes != some "")).map
      (fun r : LyrRow => { r with themes := (r.themes.map
        (fun s : String => String.mk (lowerC s.data))) }) = preproc_lyrics rows
  rw [e1, List.filter_eq_self.mpr (fun r hr => (hrow r hr).2.1),
    List.filter_eq_self.mpr (fun r hr => (hrow r hr).2.2.1), e4]

/-- The (spec-modelled) genre processing is idempotent: the `Processed
Genre` column is recomputed from the unchanged raw `Genre` column. -/
theorem process_genres_idem (rows : List BandRow) :
    process_genres (process_genres rows) = process_genres rows := by
  unfold process_genres
  rw [List.map_map]
  exact List.map_congr_left (fun r _ => rfl)

/-- The global-table reprocessing done by every call of `preproc_data` is
idempotent: a second call, run on the state the first call left in the
module globals, builds the same merged frame and leaves the same state. -/
theorem preproc_data_idem (st : Store) :
    preproc_data ((preproc_data st).2) = preproc_data st := by
  unfold preproc_data
  simp only [process_genres_idem, preproc_lyrics_idem]

/-- C3, supporting fact for the statable part of the determinism analysis:
with fixed text-similarity and geographic kernels, a second
`get_recommendations` call with identical arguments — observing the module
globals as mutated by the first call — returns the same result and leaves
the same state.  The source's only remaining cross-call nondeterminism is
inside the sklearn `TruncatedSVD` kernel of line 82, which the source
invokes with its default unseeded randomized algorithm. -/
theorem get_recommendations_repeat_deterministic
    (simFn : List Val → Nat → Nat → ℚ) (geoFn : ℚ × ℚ → ℚ × ℚ → ℚ) (st : Store)
    (band_id : Int) (gw lw sw cw : ℚ) :
    get_recommendations simFn geoFn
        ((get_recommendations simFn geoFn st band_id gw lw sw cw).2) band_id gw lw sw cw
      = get_recommendations simFn geoFn st band_id gw lw sw cw := by
  have h2 : (get_recommendations simFn geoFn st band_id gw lw sw cw).2
      = (preproc_data st).2 := rfl
  rw [h2]
  unfold get_recommendations
  rw [preproc_data_idem]

end Music
